import Mathlib

/-!
Verification of the gura_forge seismic acquisition pipeline.

This file gives a shallow embedding, in Lean, of the pure core of the
pipeline: the catalog upsert (`libs/database/seismic_catalog.py`), the
catalog scraper (`modules/catalog_scraper/seismic_scraper.py`), the CSV
extractor (`modules/catalog_scraper/csv_extractor.py`), the records
store (`libs/database/seismic_records.py`), the acceleration-file
parser and downloader (`modules/downloader/igp_records.py`), and the
event-time normalizer (`modules/downloader/records_downloader.py`).

SQLite tables are modelled as Lean lists or finite maps, one logical
operation at a time (the code opens one connection per operation, so
this sequential model is the code's own semantics per operation).
Network and filesystem effects are passed in as explicit outcome
values.  Python float values are carried as exact decimals (`Dec`)
extended with explicit infinities and nan (`PyFloat`); the claims
proved here do not depend on float rounding.
-/

set_option autoImplicit false

namespace GuraForge

/-! ## Batching helper

`seismic_catalog.bulk_upsert_events` and
`seismic_records.insert_acceleration_samples` both walk their input in
slices `events[i : i + B]` produced by `range(0, len(events), B)`.
`toBatches B l` is that slicing. -/

def toBatchesFuel {α : Type} (b : Nat) : Nat → List α → List (List α)
  | _, [] => []
  | 0, _ :: _ => []
  | fuel + 1, x :: xs =>
    (x :: xs).take b :: toBatchesFuel b fuel ((x :: xs).drop b)

/-- The slices `l[i : i + b]` for `i = 0, b, 2b, ...`; the fuel
argument (one slice consumes at least one element when `0 < b`) keeps
the recursion structural. -/
def toBatches {α : Type} (b : Nat) (l : List α) : List (List α) :=
  toBatchesFuel b l.length l

/-! ## Seismic catalog store (`libs/database/seismic_catalog.py`)

`seismic_events` has `event_id TEXT PRIMARY KEY`; we model it as a map
from `event_id` to the stored row.  `INSERT OR REPLACE` therefore
replaces the whole row for an existing key. -/

structure SeismicEvent where
  event_id : String
  agency : String
  catalog : String
  event_time : String
  longitude : ℚ
  latitude : ℚ
  depth : Option ℚ
  magnitude : Option ℚ
  mag_type : Option String
  deriving DecidableEq, Repr

abbrev CatalogStore := String → Option SeismicEvent

/-- One `INSERT OR REPLACE` row write into `seismic_events`. -/
def upsertOne (s : CatalogStore) (e : SeismicEvent) : CatalogStore :=
  fun id => if id = e.event_id then some e else s id

/-- The `SELECT event_id ... WHERE event_id IN (batch ids)` step: the set
of batch ids already present in the store (a set, hence `dedup`). -/
def existingIds (s : CatalogStore) (batch : List SeismicEvent) : List String :=
  ((batch.map (fun e => e.event_id)).dedup).filter (fun id => (s id).isSome)

/-- One batch of `SeismicCatalogHandler.bulk_upsert_events`: count the
already-existing ids, then `INSERT OR REPLACE` every row of the batch.
Returns (new store, inserted, updated). -/
def upsertBatch (s : CatalogStore) (batch : List SeismicEvent) :
    CatalogStore × Nat × Nat :=
  let ex := existingIds s batch
  (batch.foldl upsertOne s, batch.length - ex.length, ex.length)

/-- `SeismicCatalogHandler.bulk_upsert_events`: early return on an empty
list, otherwise process the list in batches of `b`
(`BATCH_SIZE_SQL_VAR`, a positive configuration constant), summing the
inserted/updated counts. -/
def bulk_upsert_events (b : Nat) (s : CatalogStore)
    (events : List SeismicEvent) : CatalogStore × Nat × Nat :=
  if events.isEmpty then (s, 0, 0)
  else
    (toBatches b events).foldl
      (fun acc batch =>
        let r := upsertBatch acc.1 batch
        (r.1, acc.2.1 + r.2.1, acc.2.2 + r.2.2))
      (s, 0, 0)

/-! Store-effect characterization of `bulk_upsert_events`. -/

/-! ## Catalog scraper (`modules/catalog_scraper/seismic_scraper.py`)

`scrape_catalog` logs a "running" row, asks the per-catalog extractor
for the year's events, upserts them, and logs the outcome; every
exception from the extractor (timeout, non-2xx, malformed payload,
unknown catalog name) is caught by its `except` clause, which logs a
"failed" row and returns a zero-count dictionary carrying the error
text.  The extractor call is modelled by its outcome, an
`Except String (List SeismicEvent)`.

`sync_catalog` rows are written with `INSERT OR REPLACE` keyed by
(catalog, year); we model the log as a map from that key.
`scrape_events` runs one `scrape_catalog` per (catalog, year) task and
collects the per-task result dictionaries; the task keys
`f"{catalog}_{year}"` are distinct for distinct tasks and aggregation
(`_calculate_totals`) is order-insensitive, so the results are
modelled as a list in task order. -/

structure SyncEntry where
  status : String
  processed : Nat
  inserted : Nat
  updated : Nat
  error : Option String
  deriving DecidableEq, Repr

abbrev SyncLog := String × Int → Option SyncEntry

def log_sync (log : SyncLog) (catalog : String) (year : Int)
    (status : String) (p i u : Nat) (err : Option String) : SyncLog :=
  fun k => if k = (catalog, year) then some ⟨status, p, i, u, err⟩ else log k

structure ScrapeResult where
  processed : Nat
  inserted : Nat
  updated : Nat
  error : Option String
  deriving DecidableEq, Repr

/-- `SeismicScraper.scrape_catalog` for one (catalog, year):
log "running", run the extractor, upsert and log "completed" on
success; on any extractor exception log "failed" with the error text
and return a zero-count result carrying the text. -/
def scrape_catalog (b : Nat) (st : CatalogStore) (log : SyncLog)
    (catalog : String) (year : Int)
    (fetch : Except String (List SeismicEvent)) :
    CatalogStore × SyncLog × ScrapeResult :=
  let log1 := log_sync log catalog year "running" 0 0 0 none
  match fetch with
  | .error msg =>
    (st, log_sync log1 catalog year "failed" 0 0 0 (some msg),
      ⟨0, 0, 0, some msg⟩)
  | .ok events =>
    let r := bulk_upsert_events b st events
    (r.1, log_sync log1 catalog year "completed" events.length r.2.1 r.2.2 none,
      ⟨events.length, r.2.1, r.2.2, none⟩)

/-- One (catalog, year) task of `scrape_events`, with the extractor's
outcome for that task. -/
structure ScrapeTask where
  catalog : String
  year : Int
  fetch : Except String (List SeismicEvent)

/-- `SeismicScraper.scrape_events`: one `scrape_catalog` per task,
collecting every per-task result. -/
def scrape_events (b : Nat) (st : CatalogStore) (log : SyncLog) :
    List ScrapeTask → CatalogStore × SyncLog × List ScrapeResult
  | [] => (st, log, [])
  | t :: ts =>
    let r := scrape_catalog b st log t.catalog t.year t.fetch
    let rest := scrape_events b r.1 r.2.1 ts
    (rest.1, rest.2.1, r.2.2 :: rest.2.2)

/-- `SeismicScraper._calculate_totals` over the collected results. -/
def total_processed (rs : List ScrapeResult) : Nat :=
  (rs.map (fun r => r.processed)).sum

def total_inserted (rs : List ScrapeResult) : Nat :=
  (rs.map (fun r => r.inserted)).sum

def total_updated (rs : List ScrapeResult) : Nat :=
  (rs.map (fun r => r.updated)).sum

def total_errors (rs : List ScrapeResult) : Nat :=
  (rs.filter (fun r => r.error.isSome)).length

/-! ## Event-time normalization
(`modules/downloader/records_downloader.py`, `_normalize_event_time`)

A `datetime` value passes through unchanged.  A string is stripped of
surrounding whitespace and of trailing `Z` characters (`rstrip("Z")`
removes every trailing `Z`), then tried against `datetime.fromisoformat`
and two `strptime` formats in order; the first success wins and any
other input falls back to `datetime.now()`.  `now` is an explicit
parameter of the model.

The parsers are embedded at character level after CPython 3.11:
`fromisoformat` on ISO calendar dates (`YYYY-MM-DD` or compact
`YYYYMMDD`), optionally followed by any one separator character and a
time `HH`, `HH:MM`, `HH:MM:SS` (or compact `HHMM`/`HHMMSS`), each
component exactly two digits, validated as the `datetime` constructor
does.  ISO week dates, fractional seconds and UTC-offset suffixes —
forms no stored `event_time` string exhibits, the latter two denoting
values (microseconds, aware datetimes) the model's `PyDateTime` does
not carry — map to `none`.  `strptime` is embedded directive by
directive with the exact regexes `_strptime.TimeRE` builds, whitespace
in the format matching one-or-more whitespace characters and leftover
input rejected; the directive alternations are deterministic here
because every following format character is a non-digit. -/

/-- CPython's whitespace set: `str.strip`, `str.split`, and the regex
class `\s` on strings all use `Py_UNICODE_ISSPACE`. -/
def isPyWs (c : Char) : Bool :=
  c = ' ' || c = '\t' || c = '\n' || c = '\r' || c = '\x0b' || c = '\x0c' ||
  (0x1c ≤ c.toNat && c.toNat ≤ 0x1f) || c.toNat = 0x85 || c.toNat = 0xa0 ||
  c.toNat = 0x1680 || (0x2000 ≤ c.toNat && c.toNat ≤ 0x200a) ||
  c.toNat = 0x2028 || c.toNat = 0x2029 || c.toNat = 0x202f ||
  c.toNat = 0x205f || c.toNat = 0x3000

def pyStrip (l : List Char) : List Char :=
  ((l.dropWhile isPyWs).reverse.dropWhile isPyWs).reverse

/-- `rstrip("Z")`: remove every trailing `Z`. -/
def rstripZ (l : List Char) : List Char :=
  (l.reverse.dropWhile (fun c => c = 'Z')).reverse

def digitsVal (ds : List Char) : Nat :=
  ds.foldl (fun a c => a * 10 + (c.toNat - 48)) 0

def digitVal (c : Char) : Nat := c.toNat - 48

/-- After at least one digit: a run of digits with single underscores
allowed between digits (PEP 515). -/
def uDigitsGo : List Char → Option (List Char × List Char)
  | [] => some ([], [])
  | '_' :: r =>
    (match r with
     | c :: r2 =>
       if c.isDigit then (uDigitsGo r2).map (fun p => (c :: p.1, p.2))
       else none
     | [] => none)
  | c :: r =>
    if c.isDigit then (uDigitsGo r).map (fun p => (c :: p.1, p.2))
    else some ([], c :: r)

/-- The digit run `int()`/`float()` read: digits with single
underscores between digits, underscores removed.  `none` marks an
underscore not surrounded by digits, which fails the WHOLE conversion
in Python rather than ending the run; `some ([], l)` is a run of no
digits. -/
def uDigits (l : List Char) : Option (List Char × List Char) :=
  match l with
  | c :: r =>
    if c.isDigit then (uDigitsGo r).map (fun p => (c :: p.1, p.2))
    else some ([], l)
  | [] => some ([], [])

/-- A run of exactly `n` digits, returning its value and the rest. -/
def parseDigits (n : Nat) (l : List Char) : Option (Nat × List Char) :=
  let ds := l.take n
  if ds.length = n ∧ ds.all Char.isDigit then some (digitsVal ds, l.drop n)
  else none

def isLeapYear (y : Nat) : Bool :=
  y % 4 = 0 && (y % 100 ≠ 0 || y % 400 = 0)

def daysInMonth (y m : Nat) : Nat :=
  if m = 2 then (if isLeapYear y then 29 else 28)
  else if m = 4 || m = 6 || m = 9 || m = 11 then 30
  else 31

structure PyDateTime where
  year : Nat
  month : Nat
  day : Nat
  hour : Nat
  minute : Nat
  second : Nat
  deriving DecidableEq, Repr

/-- `datetime(...)` constructor validation. -/
def mkDateTime? (y mo d h mi s : Nat) : Option PyDateTime :=
  if 1 ≤ y ∧ y ≤ 9999 ∧ 1 ≤ mo ∧ mo ≤ 12 ∧ 1 ≤ d ∧ d ≤ daysInMonth y mo ∧
      h ≤ 23 ∧ mi ≤ 59 ∧ s ≤ 59 then
    some ⟨y, mo, d, h, mi, s⟩
  else none

/-- The time part of `fromisoformat` (3.11) on the forms `HH`,
`HH:MM`, `HH:MM:SS` and compact `HHMM`, `HHMMSS`: each component
exactly two digits, no mixing of `:`-separated and compact.
Fractional seconds and UTC offsets, which no stored `event_time`
string carries, yield `none` (see the section comment). -/
def parseIsoTime (y mo d : Nat) (tstr : List Char) : Option PyDateTime :=
  match parseDigits 2 tstr with
  | none => none
  | some (h, t1) =>
    match t1 with
    | [] => mkDateTime? y mo d h 0 0
    | ':' :: t2 =>
      match parseDigits 2 t2 with
      | none => none
      | some (mi, t3) =>
        match t3 with
        | [] => mkDateTime? y mo d h mi 0
        | ':' :: t4 =>
          match parseDigits 2 t4 with
          | none => none
          | some (s, t5) =>
            if t5.isEmpty then mkDateTime? y mo d h mi s else none
        | _ => none
    | _ =>
      match parseDigits 2 t1 with
      | none => none
      | some (mi, t3) =>
        match t3 with
        | [] => mkDateTime? y mo d h mi 0
        | _ =>
          match parseDigits 2 t3 with
          | none => none
          | some (s, t5) =>
            if t5.isEmpty then mkDateTime? y mo d h mi s else none

/-- `datetime.fromisoformat` (3.11) on the calendar-date forms:
`YYYY-MM-DD` or compact `YYYYMMDD`, optionally followed by any one
separator character and a nonempty time (`parseIsoTime`).  ISO week
dates (`YYYY-Www-D`), which no stored string carries, yield `none`. -/
def parseIso (l : List Char) : Option PyDateTime :=
  match parseDigits 4 l with
  | none => none
  | some (y, r1) =>
    match r1 with
    | '-' :: r2 =>
      match parseDigits 2 r2 with
      | none => none
      | some (mo, r3) =>
        match r3 with
        | '-' :: r4 =>
          match parseDigits 2 r4 with
          | none => none
          | some (d, r5) =>
            match r5 with
            | [] => mkDateTime? y mo d 0 0 0
            | _ :: tstr =>
              if tstr.isEmpty then none else parseIsoTime y mo d tstr
        | _ => none
    | c :: _ =>
      if c.isDigit then
        match parseDigits 2 r1 with
        | none => none
        | some (mo, r3) =>
          match parseDigits 2 r3 with
          | none => none
          | some (d, r5) =>
            match r5 with
            | [] => mkDateTime? y mo d 0 0 0
            | _ :: tstr =>
              if tstr.isEmpty then none else parseIsoTime y mo d tstr
      else none
    | [] => none

/-- `_strptime.TimeRE`'s regex for `%m`: `1[0-2]|0[1-9]|[1-9]`. -/
def pMonth : List Char → Option (Nat × List Char)
  | '1' :: c :: r =>
    if '0' ≤ c ∧ c ≤ '2' then some (10 + digitVal c, r) else some (1, c :: r)
  | '0' :: c :: r =>
    if '1' ≤ c ∧ c ≤ '9' then some (digitVal c, r) else none
  | c :: r => if '1' ≤ c ∧ c ≤ '9' then some (digitVal c, r) else none
  | [] => none

/-- `_strptime.TimeRE`'s regex for `%d`:
`3[0-1]|[1-2]\d|0[1-9]|[1-9]| [1-9]`. -/
def pDay : List Char → Option (Nat × List Char)
  | '3' :: c :: r =>
    if c = '0' ∨ c = '1' then some (30 + digitVal c, r) else some (3, c :: r)
  | '1' :: c :: r =>
    if c.isDigit then some (10 + digitVal c, r) else some (1, c :: r)
  | '2' :: c :: r =>
    if c.isDigit then some (20 + digitVal c, r) else some (2, c :: r)
  | '0' :: c :: r =>
    if '1' ≤ c ∧ c ≤ '9' then some (digitVal c, r) else none
  | ' ' :: c :: r =>
    if '1' ≤ c ∧ c ≤ '9' then some (digitVal c, r) else none
  | c :: r => if '1' ≤ c ∧ c ≤ '9' then some (digitVal c, r) else none
  | [] => none

/-- `_strptime.TimeRE`'s regex for `%H`: `2[0-3]|[0-1]\d|\d`. -/
def pHour : List Char → Option (Nat × List Char)
  | '2' :: c :: r =>
    if '0' ≤ c ∧ c ≤ '3' then some (20 + digitVal c, r) else some (2, c :: r)
  | '0' :: c :: r =>
    if c.isDigit then some (digitVal c, r) else some (0, c :: r)
  | '1' :: c :: r =>
    if c.isDigit then some (10 + digitVal c, r) else some (1, c :: r)
  | c :: r => if c.isDigit then some (digitVal c, r) else none
  | [] => none

/-- `_strptime.TimeRE`'s regex for `%M`: `[0-5]\d|\d`. -/
def pMinute : List Char → Option (Nat × List Char)
  | c1 :: c2 :: r =>
    if '0' ≤ c1 ∧ c1 ≤ '5' ∧ c2.isDigit then
      some (10 * digitVal c1 + digitVal c2, r)
    else if c1.isDigit then some (digitVal c1, c2 :: r)
    else none
  | [c1] => if c1.isDigit then some (digitVal c1, []) else none
  | [] => none

/-- `_strptime.TimeRE`'s regex for `%S`: `6[0-1]|[0-5]\d|\d`. -/
def pSecond : List Char → Option (Nat × List Char)
  | '6' :: c :: r =>
    if c = '0' ∨ c = '1' then some (60 + digitVal c, r) else some (6, c :: r)
  | c1 :: c2 :: r =>
    if '0' ≤ c1 ∧ c1 ≤ '5' ∧ c2.isDigit then
      some (10 * digitVal c1 + digitVal c2, r)
    else if c1.isDigit then some (digitVal c1, c2 :: r)
    else none
  | [c1] => if c1.isDigit then some (digitVal c1, []) else none
  | [] => none

/-- `datetime.strptime(s, "%Y" sep1 "%m" sep1 "%d %H:%M:%S")`, `sep1`
being `-` or `/`, with each directive matched by the exact regex
`_strptime.TimeRE` builds for it (`%Y` is `\d\d\d\d`), the format's
space matching one-or-more whitespace characters, leftover input
rejected, and the resulting fields validated by the `datetime`
constructor (so the leap-second values 60 and 61 that `%S` matches are
rejected there). -/
def parseStrptime (sep1 : Char) (l : List Char) : Option PyDateTime :=
  match parseDigits 4 l with
  | none => none
  | some (y, r1) =>
    match r1 with
    | c1 :: r2 =>
      if c1 = sep1 then
        match pMonth r2 with
        | none => none
        | some (mo, r3) =>
          match r3 with
          | c2 :: r4 =>
            if c2 = sep1 then
              match pDay r4 with
              | none => none
              | some (d, r5) =>
                match r5 with
                | c3 :: r6 =>
                  if isPyWs c3 then
                    match pHour (r6.dropWhile isPyWs) with
                    | none => none
                    | some (h, r7) =>
                      match r7 with
                      | ':' :: r8 =>
                        match pMinute r8 with
                        | none => none
                        | some (mi, r9) =>
                          match r9 with
                          | ':' :: r10 =>
                            match pSecond r10 with
                            | none => none
                            | some (s, r11) =>
                              if r11.isEmpty then mkDateTime? y mo d h mi s
                              else none
                          | _ => none
                      | _ => none
                  else none
                | _ => none
            else none
          | _ => none
      else none
    | _ => none

/-- A Python value as `_normalize_event_time` receives it: a
`datetime`, a string, `None`, or anything else. -/
inductive PyVal where
  | dt (d : PyDateTime)
  | str (s : String)
  | pyNone
  | other
  deriving DecidableEq

/-- `SeismicDownloader._normalize_event_time`: a datetime is returned
unchanged; a string is stripped, its trailing `Z`s removed, and the
result tried against `fromisoformat`, then `"%Y-%m-%d %H:%M:%S"`, then
`"%Y/%m/%d %H:%M:%S"` — first success wins; everything else yields
`datetime.now()` (the `now` parameter). -/
def normalize_event_time (now : PyDateTime) (v : PyVal) : PyDateTime :=
  match v with
  | .dt d => d
  | .str s =>
    let s2 := rstripZ (pyStrip s.data)
    match parseIso s2 with
    | some d => d
    | none =>
      match parseStrptime '-' s2 with
      | some d => d
      | none =>
        match parseStrptime '/' s2 with
        | some d => d
        | none => now
  | .pyNone => now
  | .other => now

/-- A parsed decimal value `mant · 10 ^ exp`.  Python's binary floats
are represented exactly by their decimal reading; no claim proved here
depends on float rounding, and integer mantissa/exponent arithmetic
evaluates inside the kernel. -/
structure Dec where
  mant : Int
  exp : Int
  deriving DecidableEq, Repr

/-- The float literal `0.0`. -/
def decZero : Dec := ⟨0, 0⟩

/-- The rational a `Dec` denotes. -/
def Dec.toRat (d : Dec) : ℚ :=
  if 0 ≤ d.exp then (d.mant : ℚ) * (10 : ℚ) ^ d.exp.toNat
  else (d.mant : ℚ) / (10 : ℚ) ^ (-d.exp).toNat

/-- Lowercase an ASCII letter. -/
def lcChar (c : Char) : Char :=
  if 'A' ≤ c ∧ c ≤ 'Z' then Char.ofNat (c.toNat + 32) else c

/-- A Python float value as `float(str)` yields it: a finite decimal,
a signed infinity, or nan. -/
inductive PyFloat where
  | fin (d : Dec)
  | inf (negative : Bool)
  | nan
  deriving DecidableEq, Repr

/-- The float value `0.0`. -/
def pfZero : PyFloat := .fin decZero

/-- Python `float(s)`: surrounding whitespace stripped, optional sign,
then `inf`/`infinity`/`nan` case-insensitively, or digits with PEP 515
single underscores between digits, with optional fraction and
exponent. -/
def pyFloat? (s : List Char) : Option PyFloat :=
  let t := pyStrip s
  let sgnRest : Bool × List Char :=
    match t with
    | '+' :: r => (false, r)
    | '-' :: r => (true, r)
    | r => (false, r)
  let neg := sgnRest.1
  let low := sgnRest.2.map lcChar
  if low = "inf".data ∨ low = "infinity".data then some (.inf neg)
  else if low = "nan".data then some .nan
  else
    match uDigits sgnRest.2 with
    | none => none
    | some (ip, rest1) =>
      let fr : Option (List Char × List Char) :=
        match rest1 with
        | '.' :: r => uDigits r
        | r => some ([], r)
      match fr with
      | none => none
      | some (fp, rest2) =>
        if ip.isEmpty ∧ fp.isEmpty then none
        else
          let mant : Int :=
            (if neg then -1 else 1) *
              ((digitsVal ip * 10 ^ fp.length + digitsVal fp : Nat) : Int)
          let exp0 : Int := -(fp.length : Int)
          match rest2 with
          | [] => some (.fin ⟨mant, exp0⟩)
          | e :: r =>
            if e = 'e' ∨ e = 'E' then
              let esgnRest : Int × List Char :=
                match r with
                | '+' :: rr => (1, rr)
                | '-' :: rr => (-1, rr)
                | rr => (1, rr)
              match uDigits esgnRest.2 with
              | none => none
              | some (ed, rest3) =>
                if ed.isEmpty ∨ ¬ rest3.isEmpty then none
                else
                  some (.fin ⟨mant, exp0 + esgnRest.1 * (digitsVal ed : Int)⟩)
            else none

/-- Python `int(s)` (base 10): surrounding whitespace stripped,
optional sign, digits with PEP 515 single underscores between digits,
nothing after. -/
def pyInt? (s : List Char) : Option Int :=
  let t := pyStrip s
  let sgnRest : Int × List Char :=
    match t with
    | '+' :: r => (1, r)
    | '-' :: r => (-1, r)
    | r => (1, r)
  match uDigits sgnRest.2 with
  | none => none
  | some (ds, rest) =>
    if ds.isEmpty ∨ ¬ rest.isEmpty then none
    else some (sgnRest.1 * (digitsVal ds : Int))

/-- Python `str.split()` with no argument: split on whitespace runs,
never producing empty tokens. -/
def pySplitWsAux : List Char → List Char → List (List Char)
  | [], acc => if acc.isEmpty then [] else [acc.reverse]
  | c :: r, acc =>
    if isPyWs c then
      if acc.isEmpty then pySplitWsAux r []
      else acc.reverse :: pySplitWsAux r []
    else pySplitWsAux r (c :: acc)

def pySplitWs (l : List Char) : List (List Char) := pySplitWsAux l []

/-- Python `str.split("\n")`: split on newlines, keeping empty lines. -/
def splitOnNl : List Char → List (List Char)
  | [] => [[]]
  | c :: r =>
    if c = '\n' then [] :: splitOnNl r
    else
      match splitOnNl r with
      | [] => [[c]]
      | line :: rest => (c :: line) :: rest

/-- The suffix after the last newline of a character run, `none` when
the run holds no newline. -/
def splitAtLastNl : List Char → Option (List Char)
  | [] => none
  | c :: r =>
    match splitAtLastNl r with
    | some t => some t
    | none => if c = '\n' then some r else none

def wsSplit (l : List Char) : List Char × List Char :=
  (l.takeWhile isPyWs, l.dropWhile isPyWs)

/-- Match `_DATA_START_PATTERN = Z\s+N\s+E\s*\n` at the head of `s`,
returning the text after the match (after the last newline the greedy
`\s*\n` tail consumes). -/
def matchHeaderAt (s : List Char) : Option (List Char) :=
  match s with
  | 'Z' :: r =>
    let w1 := wsSplit r
    if w1.1.isEmpty then none
    else
      match w1.2 with
      | 'N' :: r2 =>
        let w2 := wsSplit r2
        if w2.1.isEmpty then none
        else
          match w2.2 with
          | 'E' :: r4 =>
            let w3 := wsSplit r4
            (splitAtLastNl w3.1).map (fun t => t ++ w3.2)
          | _ => none
      | _ => none
  | _ => none

/-- Leftmost search for the data-start pattern. -/
def findHeader : List Char → Option (List Char)
  | [] => none
  | c :: r =>
    match matchHeaderAt (c :: r) with
    | some t => some t
    | none => findHeader r

/-- The per-line loop of `_extract_samples`: strip, skip blank lines,
stop at a line with fewer than three fields or whose first three
fields do not all parse as floats, otherwise collect the triple. -/
def sampleLoop : List (List Char) → List (PyFloat × PyFloat × PyFloat)
  | [] => []
  | line :: rest =>
    let stripped := pyStrip line
    if stripped.isEmpty then sampleLoop rest
    else
      match pySplitWs stripped with
      | p0 :: p1 :: p2 :: _ =>
        match pyFloat? p0, pyFloat? p1, pyFloat? p2 with
        | some a, some b, some c => (a, b, c) :: sampleLoop rest
        | _, _, _ => []
      | _ => []

/-- `AccelerationFileParser._extract_samples`. -/
def extract_samples (content : List Char) : List (PyFloat × PyFloat × PyFloat) :=
  match findHeader content with
  | none => []
  | some rest => sampleLoop (splitOnNl rest)

/-- Simple case folding over the characters the field labels can meet:
ASCII letters and the Latin-1 uppercase range (`Ú` of
`NÚMERO DE MUESTRAS` in particular), folded as `re.IGNORECASE` folds
them. -/
def ciFold (c : Char) : Char :=
  if ('A' ≤ c ∧ c ≤ 'Z') ∨
      (0xc0 ≤ c.toNat ∧ c.toNat ≤ 0xde ∧ c.toNat ≠ 0xd7) then
    Char.ofNat (c.toNat + 32)
  else c

/-- Case-insensitive literal prefix match, returning the rest. -/
def stripPrefixCI : List Char → List Char → Option (List Char)
  | [], s => some s
  | _ :: _, [] => none
  | p :: ps, c :: cs =>
    if ciFold p = ciFold c then stripPrefixCI ps cs else none

/-- Match `3\.\s*REGISTRO\s` (IGNORECASE) at the head of `s`,
returning the text after the match. -/
def matchRegistroAt (s : List Char) : Option (List Char) :=
  match s with
  | '3' :: '.' :: r =>
    match stripPrefixCI "REGISTRO".data (r.dropWhile isPyWs) with
    | some (c :: rest) => if isPyWs c then some rest else none
    | _ => none
  | _ => none

/-- Leftmost search for the section-3 heading. -/
def findRegistro : List Char → Option (List Char)
  | [] => none
  | c :: r =>
    match matchRegistroAt (c :: r) with
    | some t => some t
    | none => findRegistro r

/-- Slice up to the next `_SECTION_PATTERN = \d\.\s*` match: the text
before the first digit immediately followed by a dot. -/
def takeUntilSectionMark : List Char → List Char
  | [] => []
  | c :: r =>
    if c.isDigit && (match r with | '.' :: _ => true | _ => false) then []
    else c :: takeUntilSectionMark r

/-- Match the field pattern `LABEL\s*:\s*(.+?)(?=\n|\r|$)` (IGNORECASE)
at the head of `s`, returning the captured value after `.strip()`.
When only whitespace follows the colon up to the end of the text, the
engine backtracks the greedy `\s*` so that `(.+?)` captures one or
more whitespace characters; this succeeds — with a capture that strips
to the empty value — exactly when that whitespace run holds a
character `.` can match, i.e. one that is not `\n`. -/
def fieldMatchAt (label : List Char) (s : List Char) : Option (List Char) :=
  match stripPrefixCI label s with
  | none => none
  | some r0 =>
    match r0.dropWhile isPyWs with
    | ':' :: r2 =>
      let w := r2.takeWhile isPyWs
      let r3 := r2.dropWhile isPyWs
      if r3.isEmpty then
        if w.any (fun c => ¬ c = '\n') then some [] else none
      else some (pyStrip (r3.takeWhile (fun c => !(c = '\n' || c = '\r'))))
    | _ => none

/-- Leftmost search for a field pattern. -/
def fieldSearch (label : List Char) : List Char → Option (List Char)
  | [] => none
  | c :: r =>
    match fieldMatchAt label (c :: r) with
    | some v => some v
    | none => fieldSearch label r

/-- The field dictionary `_extract_acceleration_section` builds: one
optional raw value per required label. -/
structure AccelMeta where
  numMuestras : Option (List Char)
  muestreo : Option (List Char)
  pga : Option (List Char)
  deriving DecidableEq, Repr

/-- `AccelerationFileParser._extract_acceleration_section`: locate the
"3. REGISTRO" heading, slice to the next numbered heading, extract the
three fields; the result is `none` when the heading is missing or when
NO field matched (`return result if result else None`). -/
def extract_acceleration_section (content : List Char) : Option AccelMeta :=
  match findRegistro content with
  | none => none
  | some suffix =>
    let sectionText := takeUntilSectionMark suffix
    let m : AccelMeta :=
      ⟨fieldSearch "NÚMERO DE MUESTRAS".data sectionText,
       fieldSearch "MUESTREO".data sectionText,
       fieldSearch "PGA".data sectionText⟩
    if m.numMuestras.isNone ∧ m.muestreo.isNone ∧ m.pga.isNone then none
    else some m

/-- `AccelerationFileParser.parse` on already-read file text: `none`
iff the section extraction fails; the samples may be empty. -/
def parse (content : List Char) : Option (AccelMeta × List (PyFloat × PyFloat × PyFloat)) :=
  match extract_acceleration_section content with
  | none => none
  | some m => some (m, extract_samples content)

/-- `re.search(r"(\d+)", s)`: the value of the first digit run. -/
def firstDigitRun? : List Char → Option Nat
  | [] => none
  | c :: r =>
    if c.isDigit then some (digitsVal ((c :: r).takeWhile Char.isDigit))
    else firstDigitRun? r

/-- The PGA extraction of `DatabaseBatch.save_acceleration_record`:
split `accel_data.get("PGA", "0 0 0")` on whitespace and convert up to
three leading parts, missing parts defaulting to 0.0; a part that
fails `float()` raises, which the surrounding `except` turns into
`None` (no record saved). -/
def pgaTriple? (pga : Option (List Char)) : Option (PyFloat × PyFloat × PyFloat) :=
  match pySplitWs (pga.getD "0 0 0".data) with
  | [] => some (pfZero, pfZero, pfZero)
  | [p0] =>
    match pyFloat? p0 with
    | some a => some (a, pfZero, pfZero)
    | none => none
  | [p0, p1] =>
    match pyFloat? p0, pyFloat? p1 with
    | some a, some b => some (a, b, pfZero)
    | _, _ => none
  | p0 :: p1 :: p2 :: _ =>
    match pyFloat? p0, pyFloat? p1, pyFloat? p2 with
    | some a, some b, some c => some (a, b, c)
    | _, _, _ => none

/-- The sampling-frequency extraction of `save_acceleration_record`:
first digit run of `accel_data.get("MUESTREO", "100")`, defaulting to
100.0 when none. -/
def samplingFreq (muestreo : Option (List Char)) : Dec :=
  match firstDigitRun? (muestreo.getD "100".data) with
  | some n => ⟨(n : Int), 0⟩
  | none => ⟨100, 0⟩

/-! ## C8: the sample-table terminator -/

/-- A line that continues the sample table: at least three
whitespace-separated fields whose first three all parse as floats. -/
def lineGood (line : List Char) : Bool :=
  match pySplitWs (pyStrip line) with
  | p0 :: p1 :: p2 :: _ =>
    (pyFloat? p0).isSome && (pyFloat? p1).isSome && (pyFloat? p2).isSome
  | _ => false

/-- The triple a table line yields (meaningful when `lineGood`). -/
def lineVal (line : List Char) : PyFloat × PyFloat × PyFloat :=
  match pySplitWs (pyStrip line) with
  | p0 :: p1 :: p2 :: _ =>
    ((pyFloat? p0).getD pfZero, (pyFloat? p1).getD pfZero,
      (pyFloat? p2).getD pfZero)
  | _ => (pfZero, pfZero, pfZero)

/-- Modelled from the claim's words, for comparison with the code's
`sampleLoop`: collection stops at the first line that is too short
(fewer than three fields — a blank line included) or whose leading
fields are non-numeric, with no other terminator and in particular no
skipping. -/
def claimedSampleLoop : List (List Char) → List (PyFloat × PyFloat × PyFloat)
  | [] => []
  | line :: rest =>
    match pySplitWs (pyStrip line) with
    | p0 :: p1 :: p2 :: _ =>
      match pyFloat? p0, pyFloat? p1, pyFloat? p2 with
      | some a, some b, some c => (a, b, c) :: claimedSampleLoop rest
      | _, _, _ => []
    | _ => []

/-- Modelled from the claim's words: `extract_samples` with the
claimed terminator behavior. -/
def claimedExtractSamples (content : List Char) : List (PyFloat × PyFloat × PyFloat) :=
  match findHeader content with
  | none => []
  | some rest => claimedSampleLoop (splitOnNl rest)

/-! ## Seismic records store (`libs/database/seismic_records.py`)

The four tables this pipeline writes, as lists of rows in insertion
order; `lastrowid` is modelled by per-table counters.  Columns the
embedded operations never read (`created_at`, `updated_at`,
`downloaded_at`, and the audit columns of events) are elided.  Each
handler method opens one connection per operation, so an operation is
one pure state transition. -/

structure StationRow where
  id : Nat
  code : String
  name : String
  latitude : Dec
  longitude : Dec
  deriving DecidableEq, Repr

structure EventRow where
  event_id : String
  catalog : String
  event_time : Option String
  deriving DecidableEq, Repr

structure AccelRecordRow where
  id : Nat
  event_id : String
  station_id : Nat
  start_time : String
  num_samples : Int
  sampling_frequency : Dec
  pga_vertical : PyFloat
  pga_north : PyFloat
  pga_east : PyFloat
  baseline_correction : Bool
  file_path : String
  deriving DecidableEq, Repr

structure SampleRow where
  record_id : Nat
  sample_index : Nat
  accel_vertical : PyFloat
  accel_north : PyFloat
  accel_east : PyFloat
  deriving DecidableEq, Repr

structure RecordsDB where
  events : List EventRow
  stations : List StationRow
  records : List AccelRecordRow
  samples : List SampleRow
  nextStationId : Nat
  nextRecordId : Nat
  deriving DecidableEq, Repr

/-- `SeismicRecordsHandler.insert_or_update_seismic_station`: update
the row matching `code` in place, else insert a fresh row and return
`lastrowid`. -/
def insert_or_update_seismic_station (db : RecordsDB) (code name : String)
    (latitude longitude : Dec) : RecordsDB × Option Nat :=
  match db.stations.find? (fun s => s.code = code) with
  | some srow =>
    ({ db with stations := db.stations.map (fun s =>
        if s.id = srow.id then
          { s with name := name, latitude := latitude, longitude := longitude }
        else s) },
      some srow.id)
  | none =>
    ({ db with
        stations := db.stations ++
          [⟨db.nextStationId, code, name, latitude, longitude⟩],
        nextStationId := db.nextStationId + 1 },
      some db.nextStationId)

/-- `SeismicRecordsHandler.insert_seismic_acceleration_record`:
`start_time` is looked up from `seismic_events` (falling back to
`datetime.utcnow()`, the `now` parameter); the row keyed
`(event_id, station_id)` is updated in place or inserted fresh. -/
def insert_seismic_acceleration_record (db : RecordsDB) (now : String)
    (event_id : String) (station_id : Nat) (num_samples : Int)
    (sampling_frequency : Dec) (pga_v pga_n pga_e : PyFloat)
    (baseline_correction : Bool) (file_path : String) :
    RecordsDB × Option Nat :=
  let start_time :=
    match db.events.find? (fun e => e.event_id = event_id) with
    | some e =>
      match e.event_time with
      | some t => t
      | none => now
    | none => now
  match db.records.find?
      (fun r => r.event_id = event_id ∧ r.station_id = station_id) with
  | some rrow =>
    ({ db with records := db.records.map (fun r =>
        if r.id = rrow.id then
          { r with
              start_time := start_time
              num_samples := num_samples
              sampling_frequency := sampling_frequency
              pga_vertical := pga_v
              pga_north := pga_n
              pga_east := pga_e
              baseline_correction := baseline_correction
              file_path := file_path }
        else r) },
      some rrow.id)
  | none =>
    ({ db with
        records := db.records ++
          [⟨db.nextRecordId, event_id, station_id, start_time, num_samples,
            sampling_frequency, pga_v, pga_n, pga_e, baseline_correction,
            file_path⟩],
        nextRecordId := db.nextRecordId + 1 },
      some db.nextRecordId)

/-- Python `enumerate` from a start index. -/
def pyEnumerate {α : Type} : Nat → List α → List (Nat × α)
  | _, [] => []
  | n, x :: xs => (n, x) :: pyEnumerate (n + 1) xs

/-- The rows one batch inserts:
`[(record_id, idx + i, z, n, e) for idx, (z, n, e) in enumerate(batch)]`. -/
def sampleRowsOfBatch (rid : Nat) (i : Nat)
    (batch : List (PyFloat × PyFloat × PyFloat)) : List SampleRow :=
  (pyEnumerate 0 batch).map
    (fun p => ⟨rid, p.1 + i, p.2.1, p.2.2.1, p.2.2.2⟩)

/-- All rows the batched loop inserts.  The loop variable `i` advances
by the batch size; every batch but the last is full, so advancing by
the batch's own length (done here) produces the same offsets. -/
def sampleRowsAll (rid : Nat) (b : Nat)
    (samples : List (PyFloat × PyFloat × PyFloat)) : List SampleRow :=
  ((toBatches b samples).foldl
    (fun acc batch => (acc.1 + batch.length,
      acc.2 ++ sampleRowsOfBatch rid acc.1 batch))
    (0, [])).2

/-- `SeismicRecordsHandler.insert_acceleration_samples`: an empty list
returns `False` before anything touches the store; otherwise one
transaction deletes every prior sample of `record_id` and bulk-inserts
the new rows, indexed from 0 in list order. -/
def insert_acceleration_samples (db : RecordsDB) (record_id : Nat)
    (samples : List (PyFloat × PyFloat × PyFloat)) (b : Nat) : RecordsDB × Bool :=
  if samples.isEmpty then (db, false)
  else
    ({ db with samples :=
        db.samples.filter (fun s => ¬ s.record_id = record_id) ++
          sampleRowsAll record_id b samples },
      true)

/-- `SeismicRecordsHandler.count_records_by_event`. -/
def count_records_by_event (db : RecordsDB) (event_id : String) : Nat :=
  (db.records.filter (fun r => r.event_id = event_id)).length

/-- `SeismicRecordsHandler.get_events_without_records`: catalog events
whose `event_id` appears in no acceleration record, up to `limit`. -/
def get_events_without_records (db : RecordsDB) (catalog : String)
    (limit : Nat) : List EventRow :=
  (db.events.filter (fun e => e.catalog = catalog ∧
    ¬ e.event_id ∈ db.records.map (fun r => r.event_id))).take limit

/-! ## Station download-parse-persist
(`modules/downloader/igp_records.py`) -/

structure StationInfo where
  code : String
  name : String
  latitude : Dec
  longitude : Dec
  network : String
  deriving DecidableEq, Repr

inductive StationProcessStatus where
  | success
  | file_not_found
  | parse_error
  | db_station_save_error
  | db_record_save_error
  | db_samples_save_error
  deriving DecidableEq, Repr

structure StationProcessResult where
  station_code : String
  status : StationProcessStatus
  samples_count : Nat
  station_id : Option Nat
  record_id : Option Nat
  deriving DecidableEq, Repr

/-- `DatabaseBatch.get_or_create_station`; the per-event cache only
memoizes an id an earlier call already returned, so one call is the
underlying station upsert. -/
def get_or_create_station (db : RecordsDB) (st : StationInfo) :
    RecordsDB × Option Nat :=
  insert_or_update_seismic_station db st.code st.name st.latitude st.longitude

/-- `DatabaseBatch.save_acceleration_record`: convert the PGA line,
sampling frequency and the DECLARED sample count
(`int(accel_data.get("NÚMERO DE MUESTRAS", "0"))`) from the parsed
metadata — a conversion failure is caught and yields `None` — then
upsert the record row. -/
def save_acceleration_record (db : RecordsDB) (now : String)
    (event_id : String) (station_id : Nat) (m : AccelMeta)
    (file_path : String) : RecordsDB × Option Nat :=
  match pgaTriple? m.pga, pyInt? (m.numMuestras.getD "0".data) with
  | some pga, some n =>
    insert_seismic_acceleration_record db now event_id station_id n
      (samplingFreq m.muestreo) pga.1 pga.2.1 pga.2.2 true file_path
  | _, _ => (db, none)

/-- `DatabaseBatch.save_samples`: calls
`insert_acceleration_samples` but DISCARDS its Boolean result and
returns `True` (only an exception from the call, impossible in the
pure model, would make it return `False`). -/
def save_samples (db : RecordsDB) (b : Nat) (record_id : Nat)
    (samples : List (PyFloat × PyFloat × PyFloat)) : RecordsDB × Bool :=
  ((insert_acceleration_samples db record_id samples b).1, true)

/-- `StationProcessor.process`: the download outcome is passed in as
the saved file's path and text (`none` = failed GET, `FILE_NOT_FOUND`);
then parse and persist station / record / samples in order, each
falsy result short-circuiting with its status (`if not station_id`
also treats a 0 id as falsy, as Python does). -/
def stationProcess (b : Nat) (db : RecordsDB) (now : String)
    (event_id : String) (station : StationInfo)
    (download : Option (String × List Char)) :
    RecordsDB × StationProcessResult :=
  match download with
  | none => (db, ⟨station.code, .file_not_found, 0, none, none⟩)
  | some (fp, content) =>
    match parse content with
    | none => (db, ⟨station.code, .parse_error, 0, none, none⟩)
    | some (m, samples) =>
      let r1 := get_or_create_station db station
      match r1.2 with
      | none => (r1.1, ⟨station.code, .db_station_save_error, 0, none, none⟩)
      | some sid =>
        if sid = 0 then
          (r1.1, ⟨station.code, .db_station_save_error, 0, none, none⟩)
        else
          let r2 := save_acceleration_record r1.1 now event_id sid m fp
          match r2.2 with
          | none =>
            (r2.1, ⟨station.code, .db_record_save_error, 0, some sid, none⟩)
          | some rid =>
            if rid = 0 then
              (r2.1, ⟨station.code, .db_record_save_error, 0, some sid, none⟩)
            else
              let r3 := save_samples r2.1 b rid samples
              if r3.2 then
                (r3.1, ⟨station.code, .success, samples.length,
                  some sid, some rid⟩)
              else
                (r3.1, ⟨station.code, .db_samples_save_error, samples.length,
                  some sid, some rid⟩)

/-! ## Per-event metrics and orchestration
(`modules/downloader/igp_records.py`, `IGPDownloader`) -/

/-- One element of the breadcrumb API's `stats` array. -/
structure StatEntry where
  cod : Option String
  nom : Option String
  coordinates : List Dec
  net : Option String
  deriving DecidableEq, Repr

/-- The breadcrumb API payload: the `_id` field and the `stats` array. -/
structure EventData where
  api_id : Option Int
  stats : List StatEntry
  deriving DecidableEq, Repr

/-- `StationExtractor.extract`: drop entries with a falsy code or name
or fewer than two coordinates; `latitude` is `coordinates[1]`,
`longitude` is `coordinates[0]`, the network defaults to "PE". -/
def stationExtract (d : EventData) : List StationInfo :=
  d.stats.foldr (fun stat acc =>
    match stat.cod with
    | none => acc
    | some c =>
      if c = "" then acc
      else
        match stat.nom with
        | none => acc
        | some nm =>
          if nm = "" then acc
          else if 2 ≤ stat.coordinates.length then
            ⟨c, nm, stat.coordinates.getD 1 decZero,
              stat.coordinates.getD 0 decZero, stat.net.getD "PE"⟩ :: acc
          else acc) []

/-- `EventProcessMetrics` (the string audit trail `failed_details`,
which no claim inspects, is elided; its lock guards these counters). -/
structure EventProcessMetrics where
  total_events_requested : Nat := 0
  events_downloaded : Nat := 0
  events_failed_download : Nat := 0
  events_parse_error : Nat := 0
  stations_processed : Nat := 0
  stations_saved_db : Nat := 0
  stations_file_not_found : Nat := 0
  stations_parse_error : Nat := 0
  stations_db_error : Nat := 0
  total_samples : Nat := 0
  deriving DecidableEq, Repr

def record_success (m : EventProcessMetrics) (k : Nat) : EventProcessMetrics :=
  { m with
      stations_saved_db := m.stations_saved_db + 1
      total_samples := m.total_samples + k }

def record_file_not_found (m : EventProcessMetrics) : EventProcessMetrics :=
  { m with stations_file_not_found := m.stations_file_not_found + 1 }

def record_parse_error (m : EventProcessMetrics) : EventProcessMetrics :=
  { m with stations_parse_error := m.stations_parse_error + 1 }

def record_db_error (m : EventProcessMetrics) : EventProcessMetrics :=
  { m with stations_db_error := m.stations_db_error + 1 }

/-- `IGPDownloader._update_metrics`: one counter bump per terminal
station outcome. -/
def update_metrics (m : EventProcessMetrics)
    (results : List StationProcessResult) : EventProcessMetrics :=
  results.foldl (fun m r =>
    match r.status with
    | .success => record_success m r.samples_count
    | .file_not_found => record_file_not_found m
    | .parse_error => record_parse_error m
    | _ => record_db_error m) m

/-- `IGPDownloader.process_event`: count the request; a failed
breadcrumb fetch or an empty station extraction returns `False`;
otherwise `stations_processed` is ASSIGNED (not added) the station
count, every station is processed (`proc` summarizes
`StationProcessor.process`, whose own `except` clause means every
future returns a result), the metrics absorb all results, and the
return value is `stations_saved_db > 0` on the downloader's metrics
object. -/
def process_event (m : EventProcessMetrics) (eventData : Option EventData)
    (proc : StationInfo → StationProcessResult) :
    EventProcessMetrics × Bool :=
  let m1 := { m with total_events_requested := m.total_events_requested + 1 }
  match eventData with
  | none =>
    ({ m1 with events_failed_download := m1.events_failed_download + 1 },
      false)
  | some d =>
    let m2 := { m1 with events_downloaded := m1.events_downloaded + 1 }
    let stations := stationExtract d
    if stations.isEmpty then
      ({ m2 with events_parse_error := m2.events_parse_error + 1 }, false)
    else
      let m3 := { m2 with stations_processed := stations.length }
      let m4 := update_metrics m3 (stations.map proc)
      (m4, decide (0 < m4.stations_saved_db))

/-! ## C2: sample persistence is a full replace with contiguous indices -/

/-- The row the pipeline stores for the `p.1`-th sample triple. -/
def sampleRowOf (rid : Nat) (p : Nat × (PyFloat × PyFloat × PyFloat)) : SampleRow :=
  ⟨rid, p.1, p.2.1, p.2.2.1, p.2.2.2⟩

/-- A report whose section DECLARES 2 samples while its table holds
one row. -/
def c2Report : String :=
  "X\n3. REGISTRO \nNÚMERO DE MUESTRAS : 2\nMUESTREO : 100\nPGA : 1 2 3\n Z N E\n0 1 2\n"

def c2DB : RecordsDB :=
  ⟨[⟨"ev1", "igp", some "2020-01-01 00:00:00"⟩], [], [], [], 1, 1⟩

/-- The download-parse-persist run on `c2Report`. -/
def c2Run : RecordsDB × StationProcessResult :=
  stationProcess 50 c2DB "now" "ev1" ⟨"ST1", "Station", decZero, decZero, "PE"⟩
    (some ("f.txt", c2Report.data))

/-! ## C6: resumable event selection -/

/-! ## C9: the empty-sample-list path -/

/-- A report that parses with full metadata but an empty sample table
(no `Z N E` header). -/
def c9Report : String :=
  "3. REGISTRO\nNÚMERO DE MUESTRAS : 100\nMUESTREO : 100\nPGA : 1 2 3\n"

/-- A store already holding a record for ("ev1", station 1) with one
persisted sample. -/
def c9DB : RecordsDB :=
  ⟨[⟨"ev1", "igp", some "2020-01-01 00:00:00"⟩],
   [⟨1, "ST1", "Station", decZero, decZero⟩],
   [⟨1, "ev1", 1, "2020-01-01 00:00:00", 100, ⟨100, 0⟩, pfZero, pfZero,
     pfZero, true, "old.txt"⟩],
   [⟨1, 0, .fin ⟨5, 0⟩, .fin ⟨6, 0⟩, .fin ⟨7, 0⟩⟩], 2, 2⟩

def c9Run : RecordsDB × StationProcessResult :=
  stationProcess 50 c9DB "now" "ev1" ⟨"ST1", "Station", decZero, decZero, "PE"⟩
    (some ("f.txt", c9Report.data))

/-! ## C5: per-event outcome aggregation -/

/-- The concrete two-station scenario of the claim: station A succeeds
with 50 samples, station B's file is missing. -/
def c5Data : EventData :=
  ⟨some 77,
   [⟨some "A", some "Alpha", [⟨-77, 0⟩, ⟨-12, 0⟩], some "PE"⟩,
    ⟨some "B", some "Beta", [⟨-76, 0⟩, ⟨-11, 0⟩], none⟩]⟩

def c5Proc : StationInfo → StationProcessResult :=
  fun st =>
    if st.code = "A" then ⟨"A", .success, 50, some 1, some 1⟩
    else ⟨"B", .file_not_found, 0, none, none⟩

/-! ## CSV extraction (`modules/catalog_scraper/csv_extractor.py`)

`CSVExtractor.fetch_events` validates the fixed required-column set up
front and raises `ValueError` before touching any row; its own outer
`except` clause catches that (and anything else) and returns `[]`.
The raising body is embedded as `fetchEventsE` returning
`Except (List String) ...` (the error value carries the missing-column
set of the message) and the catching function as
`CSVExtractor_fetch_events`. -/

/-- Decimal comparison by aligning exponents. -/
def Dec.le (a b : Dec) : Bool :=
  let e := min a.exp b.exp
  decide (a.mant * (10 : Int) ^ (a.exp - e).toNat ≤
    b.mant * (10 : Int) ^ (b.exp - e).toNat)

/-- A pandas cell: numeric, string, or null/NaN. -/
inductive Cell where
  | num (d : Dec)
  | str (s : String)
  | null
  deriving DecidableEq, Repr

abbrev CSVRow := String → Cell

structure CSVFrame where
  columns : List String
  rows : List CSVRow

def required_columns : List String :=
  ["event_id", "year", "month", "day", "hour", "minute", "second",
   "latitude", "longitude", "depth", "magnitude", "magType", "catalog"]

/-- `df[col] >= x` row predicate: a numeric cell compares, NaN (null)
compares false so its row is dropped.  (On a string cell pandas raises
a `TypeError`, which the function's outer handler turns into an empty
result — modelled as dropped; no claim exercises that path.) -/
def cellGeDec (c : Cell) (x : Dec) : Bool :=
  match c with
  | .num d => Dec.le x d
  | _ => false

def cellLeDec (c : Cell) (x : Dec) : Bool :=
  match c with
  | .num d => Dec.le d x
  | _ => false

def cellGeInt (c : Cell) (x : Int) : Bool := cellGeDec c ⟨x, 0⟩

/-- Python `int(x)` on a float value: truncate toward zero. -/
def decTruncInt (d : Dec) : Int :=
  if 0 ≤ d.exp then d.mant * (10 : Int) ^ d.exp.toNat
  else
    if 0 ≤ d.mant then ((d.mant.toNat / 10 ^ (-d.exp).toNat : Nat) : Int)
    else -(((-d.mant).toNat / 10 ^ (-d.exp).toNat : Nat) : Int)

def cellInt? (c : Cell) : Option Int :=
  match c with
  | .num d => some (decTruncInt d)
  | .str s => pyInt? s.data
  | .null => none

/-- `float(cell)` restricted to finite results: a catalog CSV cell
spelling an infinity or nan — which no catalog carries — is outside
the modelled Dec-valued coordinate fragment and maps to `none` here. -/
def cellFloat? (c : Cell) : Option Dec :=
  match c with
  | .num d => some d
  | .str s =>
    match pyFloat? s.data with
    | some (.fin d) => some d
    | _ => none
  | .null => none

/-- The string a cell contributes to a string-typed event field
(identifiers and catalog names are strings in the catalog CSVs). -/
def cellStr (c : Cell) : String :=
  match c with
  | .str s => s
  | .num d => toString d.mant
  | .null => ""

def pad2 (n : Nat) : String :=
  if n < 10 then "0" ++ toString n else toString n

/-- The stored text of a `datetime`. -/
def dtString (d : PyDateTime) : String :=
  toString d.year ++ "-" ++ pad2 d.month ++ "-" ++ pad2 d.day ++ " " ++
    pad2 d.hour ++ ":" ++ pad2 d.minute ++ ":" ++ pad2 d.second

/-- The per-row body of the extraction loop: `None` is the `continue`
of its `except` clause — null lat/lon/year, a failed int/float
conversion, or an invalid `datetime(...)` all skip the row. -/
def rowEvent? (row : CSVRow) : Option SeismicEvent :=
  if row "latitude" = Cell.null ∨ row "longitude" = Cell.null ∨
      row "year" = Cell.null then none
  else
    match cellInt? (row "year"), cellInt? (row "month"), cellInt? (row "day"),
        cellInt? (row "hour"), cellInt? (row "minute"),
        cellInt? (row "second") with
    | some y, some mo, some dd, some hh, some mi, some ss =>
      if 0 ≤ y ∧ 0 ≤ mo ∧ 0 ≤ dd ∧ 0 ≤ hh ∧ 0 ≤ mi ∧ 0 ≤ ss then
        match mkDateTime? y.toNat mo.toNat dd.toNat hh.toNat mi.toNat
            ss.toNat with
        | some dt =>
          match cellFloat? (row "longitude"), cellFloat? (row "latitude") with
          | some lon, some lat =>
            let dep : Option (Option Dec) :=
              match row "depth" with
              | .null => some none
              | c =>
                match cellFloat? c with
                | some v => some (some v)
                | none => none
            let mag : Option (Option Dec) :=
              match row "magnitude" with
              | .null => some none
              | c =>
                match cellFloat? c with
                | some v => some (some v)
                | none => none
            match dep, mag with
            | some dv, some mv =>
              some ⟨cellStr (row "event_id"), cellStr (row "catalog"),
                cellStr (row "catalog"), dtString dt, lon.toRat, lat.toRat,
                dv.map Dec.toRat, mv.map Dec.toRat,
                some (cellStr (row "magType"))⟩
            | _, _ => none
          | _, _ => none
        | none => none
      else none
    | _, _, _, _, _, _ => none

def applyYearFilter (year : Option Int) (rows : List CSVRow) : List CSVRow :=
  match year with
  | some y => rows.filter (fun row => cellGeInt (row "year") y)
  | none => rows

def applyGeFilter (col : String) (v : Option Dec) (rows : List CSVRow) :
    List CSVRow :=
  match v with
  | some x => rows.filter (fun row => cellGeDec (row col) x)
  | none => rows

def applyLeFilter (col : String) (v : Option Dec) (rows : List CSVRow) :
    List CSVRow :=
  match v with
  | some x => rows.filter (fun row => cellLeDec (row col) x)
  | none => rows

/-- The raising body of `CSVExtractor.fetch_events`: validate the
required columns FIRST — a missing column raises before any row is
read — then filter and map the remaining rows, skipping bad rows. -/
def fetchEventsE (fr : CSVFrame) (year : Option Int)
    (minLat maxLat minLon maxLon : Option Dec) :
    Except (List String) (List SeismicEvent) :=
  let missing := required_columns.filter (fun c => ¬ c ∈ fr.columns)
  if ¬ missing.isEmpty then Except.error missing
  else
    let rows1 := applyYearFilter year fr.rows
    let rows2 := applyGeFilter "latitude" minLat rows1
    let rows3 := applyLeFilter "latitude" maxLat rows2
    let rows4 := applyGeFilter "longitude" minLon rows3
    let rows5 := applyLeFilter "longitude" maxLon rows4
    Except.ok (rows5.filterMap rowEvent?)

/-- `CSVExtractor.fetch_events` as its callers see it: the outer
`except` clause converts the raise into an empty list. -/
def CSVExtractor_fetch_events (fr : CSVFrame) (year : Option Int)
    (minLat maxLat minLon maxLon : Option Dec) : List SeismicEvent :=
  match fetchEventsE fr year minLat maxLat minLon maxLon with
  | .ok evs => evs
  | .error _ => []

/-- `SeismicScraper.scrape_catalog_from_csv`: zero-count result when
no events came back, else upsert and report. -/
def scrape_catalog_from_csv (b : Nat) (st : CatalogStore) (fr : CSVFrame)
    (year : Option Int) (minLat maxLat minLon maxLon : Option Dec) :
    CatalogStore × ScrapeResult :=
  let events := CSVExtractor_fetch_events fr year minLat maxLat minLon maxLon
  if events.isEmpty then (st, ⟨0, 0, 0, none⟩)
  else
    let r := bulk_upsert_events b st events
    (r.1, ⟨events.length, r.2.1, r.2.2, none⟩)

/-! ## Theorems -/

theorem toBatchesFuel_flatten {α : Type} (b : Nat) (hb : 0 < b) :
    ∀ (fuel : Nat) (l : List α), l.length ≤ fuel →
      (toBatchesFuel b fuel l).flatten = l := by
  intro fuel
  induction fuel with
  | zero =>
    intro l hl
    rcases l with _ | ⟨x, xs⟩
    · rfl
    · simp at hl
  | succ n ih =>
    intro l hl
    rcases l with _ | ⟨x, xs⟩
    · rfl
    · simp only [toBatchesFuel, List.flatten_cons]
      rw [ih _ (by simp [List.length_drop]; simp at hl; omega),
        List.take_append_drop]

theorem toBatches_flatten {α : Type} (b : Nat) (hb : 0 < b) (l : List α) :
    (toBatches b l).flatten = l :=
  toBatchesFuel_flatten b hb l.length l le_rfl

theorem toBatches_singleton {α : Type} (b : Nat) (hb : 0 < b) (x : α) :
    toBatches b [x] = [[x]] := by
  rcases b with _ | n
  · omega
  · simp [toBatches, toBatchesFuel]

theorem lookup_foldl_upsertOne (l : List SeismicEvent) (s : CatalogStore)
    (id : String) :
    (l.foldl upsertOne s) id =
      ((l.filter (fun e => e.event_id = id)).foldl (fun _ e => some e) (s id)) := by
  induction l generalizing s with
  | nil => rfl
  | cons e l ih =>
    rw [List.foldl_cons, ih]
    by_cases h : e.event_id = id
    · simp [List.filter_cons, h, upsertOne]
    · have h2 : ¬ id = e.event_id := fun hc => h hc.symm
      simp [List.filter_cons, h, upsertOne, h2]

theorem store_foldl_batches (B : List (List SeismicEvent)) (s : CatalogStore)
    (i u : Nat) :
    (B.foldl
      (fun acc batch =>
        let r := upsertBatch acc.1 batch
        (r.1, acc.2.1 + r.2.1, acc.2.2 + r.2.2))
      (s, i, u)).1 = B.flatten.foldl upsertOne s := by
  induction B generalizing s i u with
  | nil => rfl
  | cons batch B ih =>
    rw [List.foldl_cons, List.flatten_cons, List.foldl_append]
    exact ih _ _ _

theorem store_bulk_upsert (b : Nat) (hb : 0 < b) (s : CatalogStore)
    (l : List SeismicEvent) :
    (bulk_upsert_events b s l).1 = l.foldl upsertOne s := by
  unfold bulk_upsert_events
  by_cases hl : l.isEmpty
  · rcases l with _ | ⟨x, xs⟩
    · simp
    · simp at hl
  · rw [if_neg hl, store_foldl_batches, toBatches_flatten b hb]

theorem bulk_upsert_single (b : Nat) (hb : 0 < b) (s : CatalogStore)
    (e : SeismicEvent) :
    bulk_upsert_events b s [e] =
      (upsertOne s e, 1 - (existingIds s [e]).length,
        (existingIds s [e]).length) := by
  unfold bulk_upsert_events
  rw [if_neg (by simp), toBatches_singleton b hb]
  simp [upsertBatch]

theorem foldl_last_irrel (l : List SeismicEvent) (hne : l ≠ [])
    (a b : Option SeismicEvent) :
    l.foldl (fun _ e => some e) a = l.foldl (fun _ e => some e) b := by
  rcases l with _ | ⟨x, xs⟩
  · exact absurd rfl hne
  · simp

theorem filter_eventid_length_le_one (l : List SeismicEvent) (id : String)
    (h : (l.map (fun e => e.event_id)).Nodup) :
    (l.filter (fun e => e.event_id = id)).length ≤ 1 := by
  rcases hfl : l.filter (fun e => e.event_id = id) with _ | ⟨x, fl2⟩
  · simp [hfl]
  · rcases fl2 with _ | ⟨y, fl3⟩
    · simp [hfl]
    · exfalso
      have hsub : List.Sublist ((x :: y :: fl3).map (fun e => e.event_id))
          (l.map (fun e => e.event_id)) := by
        rw [← hfl]
        exact (List.filter_sublist l).map _
      have hnd := hsub.nodup h
      have hx : x ∈ l.filter (fun e => e.event_id = id) := by
        rw [hfl]; exact List.mem_cons_self _ _
      have hy : y ∈ l.filter (fun e => e.event_id = id) := by
        rw [hfl]; simp
      have hxid : x.event_id = id := by
        have := List.of_mem_filter hx; simpa using this
      have hyid : y.event_id = id := by
        have := List.of_mem_filter hy; simpa using this
      simp [List.nodup_cons, hxid, hyid] at hnd

/-- C1: `bulk_upsert_events([e])` run twice on a store not yet holding
`e.event_id` reports inserted=1/updated=0 on the first call and
inserted=0/updated=1 on the second; the stored rows agree after both
calls; replaying any identical event list leaves the stored state
fixed; and for a list whose event ids are distinct, the final stored
state does not depend on the order of the list. -/
theorem c1_bulk_upsert_idempotent (b : Nat) (e : SeismicEvent)
    (s0 : CatalogStore) (hb : 0 < b) (h0 : s0 e.event_id = none) :
    (bulk_upsert_events b s0 [e]).2 = (1, 0) ∧
    (bulk_upsert_events b (bulk_upsert_events b s0 [e]).1 [e]).2 = (0, 1) ∧
    (∀ id, (bulk_upsert_events b (bulk_upsert_events b s0 [e]).1 [e]).1 id =
        (bulk_upsert_events b s0 [e]).1 id) ∧
    (∀ (s : CatalogStore) (l : List SeismicEvent) (id : String),
        (bulk_upsert_events b (bulk_upsert_events b s l).1 l).1 id =
          (bulk_upsert_events b s l).1 id) ∧
    (∀ (s : CatalogStore) (l l2 : List SeismicEvent) (id : String),
        l.Perm l2 → (l.map (fun ev => ev.event_id)).Nodup →
        (bulk_upsert_events b s l).1 id = (bulk_upsert_events b s l2).1 id) := by
  have hex0 : existingIds s0 [e] = [] := by
    simp [existingIds, h0]
  have hex1 : existingIds (upsertOne s0 e) [e] = [e.event_id] := by
    simp [existingIds, upsertOne]
  refine ⟨?_, ?_, ?_, ?_, ?_⟩
  · rw [bulk_upsert_single b hb, hex0]
    rfl
  · rw [bulk_upsert_single b hb, bulk_upsert_single b hb]
    simp [hex1]
  · intro id
    rw [bulk_upsert_single b hb, bulk_upsert_single b hb]
    simp only [upsertOne]
    by_cases hid : id = e.event_id <;> simp [hid]
  · intro s l id
    rw [store_bulk_upsert b hb, store_bulk_upsert b hb,
      lookup_foldl_upsertOne, lookup_foldl_upsertOne]
    by_cases hfl : l.filter (fun ev => ev.event_id = id) = []
    · simp [hfl]
    · exact foldl_last_irrel _ hfl _ _
  · intro s l l2 id hperm hnd
    rw [store_bulk_upsert b hb, store_bulk_upsert b hb,
      lookup_foldl_upsertOne, lookup_foldl_upsertOne]
    have hpf : (l.filter (fun ev => ev.event_id = id)).Perm
        (l2.filter (fun ev => ev.event_id = id)) := hperm.filter _
    have hlen := filter_eventid_length_le_one l id hnd
    rcases hfl : l.filter (fun ev => ev.event_id = id) with _ | ⟨x, fl2⟩
    · rw [hfl] at hpf
      rw [hfl, hpf.symm.eq_nil]
    · rw [hfl] at hpf hlen
      rcases fl2 with _ | ⟨y, fl3⟩
      · rw [hfl, List.perm_singleton.mp hpf.symm]
      · simp at hlen

/-- Witness for C1 at a concrete event and the empty store. -/
theorem c1_bulk_upsert_idempotent_witness :
    (bulk_upsert_events 1
      (fun _ => none)
      [{ event_id := "ev1", agency := "igp", catalog := "igp",
         event_time := "2020-01-01 00:00:00", longitude := -75,
         latitude := -12, depth := some 10, magnitude := some 5,
         mag_type := some "ML" }]).2 = (1, 0) := by
  exact (c1_bulk_upsert_idempotent 1
    { event_id := "ev1", agency := "igp", catalog := "igp",
      event_time := "2020-01-01 00:00:00", longitude := -75,
      latitude := -12, depth := some 10, magnitude := some 5,
      mag_type := some "ML" }
    (fun _ => none) (by decide) rfl).1

theorem scrape_events_append (b : Nat) (st : CatalogStore) (log : SyncLog)
    (l1 l2 : List ScrapeTask) :
    scrape_events b st log (l1 ++ l2) =
      ((scrape_events b (scrape_events b st log l1).1
          (scrape_events b st log l1).2.1 l2).1,
       (scrape_events b (scrape_events b st log l1).1
          (scrape_events b st log l1).2.1 l2).2.1,
       (scrape_events b st log l1).2.2 ++
         (scrape_events b (scrape_events b st log l1).1
            (scrape_events b st log l1).2.1 l2).2.2) := by
  induction l1 generalizing st log with
  | nil => simp [scrape_events]
  | cons t ts ih =>
    show scrape_events b st log (t :: (ts ++ l2)) = _
    simp only [scrape_events]
    rw [ih]
    simp

theorem scrape_events_length (b : Nat) (st : CatalogStore) (log : SyncLog)
    (l : List ScrapeTask) :
    (scrape_events b st log l).2.2.length = l.length := by
  induction l generalizing st log with
  | nil => rfl
  | cons t ts ih => simp [scrape_events, ih]

theorem scrape_events_log_irrel (b : Nat) (st : CatalogStore)
    (log log2 : SyncLog) (l : List ScrapeTask) :
    (scrape_events b st log l).1 = (scrape_events b st log2 l).1 ∧
    (scrape_events b st log l).2.2 = (scrape_events b st log2 l).2.2 := by
  induction l generalizing st log log2 with
  | nil => exact ⟨rfl, rfl⟩
  | cons t ts ih =>
    rcases htf : t.fetch with msg | events
    · simp only [scrape_events, htf, scrape_catalog]
      exact ⟨(ih st _ _).1, by rw [(ih st _ _).2]⟩
    · simp only [scrape_events, htf, scrape_catalog]
      exact ⟨(ih _ _ _).1, by rw [(ih _ _ _).2]⟩

theorem scrape_catalog_ok_no_error (b : Nat) (st : CatalogStore)
    (log : SyncLog) (c : String) (y : Int) (events : List SeismicEvent) :
    (scrape_catalog b st log c y (.ok events)).2.2.error = none := rfl

theorem total_errors_all_ok (b : Nat) (st : CatalogStore) (log : SyncLog)
    (l : List ScrapeTask)
    (h : ∀ t ∈ l, ∃ events, t.fetch = .ok events) :
    total_errors (scrape_events b st log l).2.2 = 0 := by
  induction l generalizing st log with
  | nil => rfl
  | cons t ts ih =>
    obtain ⟨events, hev⟩ := h t (List.mem_cons_self _ _)
    simp only [scrape_events, hev]
    have hrest := ih (scrape_catalog b st log t.catalog t.year (.ok events)).1
      (scrape_catalog b st log t.catalog t.year (.ok events)).2.1
      (fun t2 ht2 => h t2 (List.mem_cons_of_mem _ ht2))
    simp only [total_errors, List.filter_cons] at hrest ⊢
    simpa [scrape_catalog] using hrest

/-- C4: an extractor failure is absorbed by `scrape_catalog`: the
store is untouched, the sync log records a "failed" entry holding the
error text, and the returned result has zero counts with the error
attached.  In a batch, a failing task leaves every other task's result
intact (the result list is the no-failure run's list with one
zero-count error entry spliced in), the final store is the same as if
the failing task were absent, the error total is exactly 1, and the
aggregate processed/inserted/updated totals exclude the failed task. -/
theorem c4_extractor_failure_isolated (b : Nat) (st : CatalogStore)
    (log : SyncLog) (c : String) (y : Int) (msg : String)
    (pre post : List ScrapeTask)
    (hok : ∀ t ∈ pre ++ post, ∃ events, t.fetch = .ok events) :
    (scrape_catalog b st log c y (.error msg) =
      (st, log_sync (log_sync log c y "running" 0 0 0 none) c y
        "failed" 0 0 0 (some msg), ⟨0, 0, 0, some msg⟩)) ∧
    ((scrape_events b st log (pre ++ [⟨c, y, .error msg⟩] ++ post)).2.2 =
      (scrape_events b st log (pre ++ post)).2.2.take pre.length ++
        [⟨0, 0, 0, some msg⟩] ++
        (scrape_events b st log (pre ++ post)).2.2.drop pre.length) ∧
    ((scrape_events b st log (pre ++ [⟨c, y, .error msg⟩] ++ post)).1 =
      (scrape_events b st log (pre ++ post)).1) ∧
    (total_errors (scrape_events b st log
        (pre ++ [⟨c, y, .error msg⟩] ++ post)).2.2 = 1) ∧
    (total_processed (scrape_events b st log
        (pre ++ [⟨c, y, .error msg⟩] ++ post)).2.2 =
      total_processed (scrape_events b st log (pre ++ post)).2.2) ∧
    (total_inserted (scrape_events b st log
        (pre ++ [⟨c, y, .error msg⟩] ++ post)).2.2 =
      total_inserted (scrape_events b st log (pre ++ post)).2.2) ∧
    (total_updated (scrape_events b st log
        (pre ++ [⟨c, y, .error msg⟩] ++ post)).2.2 =
      total_updated (scrape_events b st log (pre ++ post)).2.2) := by
  have hpre := scrape_events_append b st log pre ([⟨c, y, .error msg⟩] ++ post)
  have hpre2 := scrape_events_append b st log pre post
  set S := (scrape_events b st log pre).1 with hS
  set L := (scrape_events b st log pre).2.1 with hL
  have hmid : scrape_events b S L ([⟨c, y, .error msg⟩] ++ post) =
      ((scrape_events b S
          (log_sync (log_sync L c y "running" 0 0 0 none) c y "failed" 0 0 0
            (some msg)) post).1,
       (scrape_events b S
          (log_sync (log_sync L c y "running" 0 0 0 none) c y "failed" 0 0 0
            (some msg)) post).2.1,
       (⟨0, 0, 0, some msg⟩ : ScrapeResult) ::
         (scrape_events b S
           (log_sync (log_sync L c y "running" 0 0 0 none) c y "failed" 0 0 0
             (some msg)) post).2.2) := by
    simp [scrape_events, scrape_catalog]
  have hlog := scrape_events_log_irrel b S
    (log_sync (log_sync L c y "running" 0 0 0 none) c y "failed" 0 0 0
      (some msg)) L post
  have hresults :
      (scrape_events b st log (pre ++ [⟨c, y, .error msg⟩] ++ post)).2.2 =
      (scrape_events b st log pre).2.2 ++
        (⟨0, 0, 0, some msg⟩ : ScrapeResult) ::
          (scrape_events b S L post).2.2 := by
    rw [List.append_assoc, hpre, hmid]
    simp [hlog.2]
  have hstore :
      (scrape_events b st log (pre ++ [⟨c, y, .error msg⟩] ++ post)).1 =
      (scrape_events b S L post).1 := by
    rw [List.append_assoc, hpre, hmid]
    simp [hlog.1]
  have hresults2 :
      (scrape_events b st log (pre ++ post)).2.2 =
      (scrape_events b st log pre).2.2 ++ (scrape_events b S L post).2.2 := by
    rw [hpre2]
  have hstore2 :
      (scrape_events b st log (pre ++ post)).1 =
      (scrape_events b S L post).1 := by
    rw [hpre2]
  have hlenpre : (scrape_events b st log pre).2.2.length = pre.length :=
    scrape_events_length b st log pre
  refine ⟨rfl, ?_, ?_, ?_, ?_, ?_, ?_⟩
  · rw [hresults, hresults2, List.take_append_of_le_length (by omega),
      List.take_of_length_le (by omega), List.drop_append_of_le_length (by omega),
      List.drop_of_length_le (by omega)]
    simp
  · rw [hstore, hstore2]
  · rw [hresults]
    have h1 : total_errors (scrape_events b st log pre).2.2 = 0 :=
      total_errors_all_ok b st log pre
        (fun t ht => hok t (List.mem_append_left _ ht))
    have h2 : total_errors (scrape_events b S L post).2.2 = 0 :=
      total_errors_all_ok b S L post
        (fun t ht => hok t (List.mem_append_right _ ht))
    simp only [total_errors, List.filter_append, List.filter_cons,
      List.length_append] at h1 h2 ⊢
    simp [h1, h2]
  · rw [hresults, hresults2]
    simp [total_processed]
  · rw [hresults, hresults2]
    simp [total_inserted]
  · rw [hresults, hresults2]
    simp [total_updated]

/-- Witness for C4 with one successful sibling task before the failing
task. -/
theorem c4_extractor_failure_isolated_witness :
    total_errors (scrape_events 1 (fun _ => none) (fun _ => none)
      ([⟨"usgs", 2020, .ok []⟩] ++ [⟨"igp", 2020, .error "timeout"⟩] ++ [])).2.2
      = 1 := by
  exact (c4_extractor_failure_isolated 1 (fun _ => none) (fun _ => none)
    "igp" 2020 "timeout" [⟨"usgs", 2020, .ok []⟩] []
    (by intro t ht; simp at ht; exact ⟨[], by rw [ht]⟩)).2.2.2.1

/-- C7 counterexample: a report whose "3. REGISTRO" section carries
only the sampling-rate field — it lacks the sample count and the PGA
line — yet `parse` succeeds with a metadata result, refuting the claim
that a section lacking any one required field fails to parse. -/
theorem c7_missing_field_still_parses :
    parse ("3. REGISTRO\nMUESTREO : 100\n".data) =
      some (⟨none, some "100".data, none⟩, []) := by
  decide

/-- C7 (amended): parsing fails exactly when the "3. REGISTRO" heading
is absent or when NONE of the three fields occurs in the section
slice; an individually missing field is defaulted downstream
(sampling rate 100 Hz, PGA "0 0 0"), and a PGA line with fewer than
three numbers defaults the missing values to 0.0. -/
theorem c7_required_fields_amended :
    (∀ content : List Char,
      parse content = none ↔
        (findRegistro content = none ∨
          (fieldSearch "NÚMERO DE MUESTRAS".data
              (takeUntilSectionMark ((findRegistro content).getD [])) = none ∧
           fieldSearch "MUESTREO".data
              (takeUntilSectionMark ((findRegistro content).getD [])) = none ∧
           fieldSearch "PGA".data
              (takeUntilSectionMark ((findRegistro content).getD [])) = none))) ∧
    (pgaTriple? none = some (pfZero, pfZero, pfZero)) ∧
    (samplingFreq none = ⟨100, 0⟩) ∧
    (∀ (val p : List Char) (v : PyFloat), pySplitWs val = [p] →
        pyFloat? p = some v → pgaTriple? (some val) = some (v, pfZero, pfZero)) ∧
    (∀ (val p q : List Char) (v w : PyFloat), pySplitWs val = [p, q] →
        pyFloat? p = some v → pyFloat? q = some w →
        pgaTriple? (some val) = some (v, w, pfZero)) := by
  refine ⟨?_, by decide, by decide, ?_, ?_⟩
  · intro content
    unfold parse extract_acceleration_section
    rcases hr : findRegistro content with _ | suffix
    · simp
    · simp only [Option.getD_some]
      rcases h1 : fieldSearch "NÚMERO DE MUESTRAS".data
          (takeUntilSectionMark suffix) with _ | v1 <;>
        rcases h2 : fieldSearch "MUESTREO".data
            (takeUntilSectionMark suffix) with _ | v2 <;>
          rcases h3 : fieldSearch "PGA".data
              (takeUntilSectionMark suffix) with _ | v3 <;>
            simp [h1, h2, h3]
  · intro val p v hsplit hfloat
    unfold pgaTriple?
    simp only [Option.getD_some, hsplit, hfloat]
  · intro val p q v w hsplit hp hq
    unfold pgaTriple?
    simp only [Option.getD_some, hsplit, hp, hq]

/-- Witness for C7's amended theorem: a one-number PGA line defaults
the north and east values to 0. -/
theorem c7_required_fields_amended_witness :
    pgaTriple? (some "7".data) = some (.fin ⟨7, 0⟩, pfZero, pfZero) := by
  exact c7_required_fields_amended.2.2.2.1 "7".data "7".data (.fin ⟨7, 0⟩)
    (by decide) (by decide)

/-- C8 counterexample: a blank line inside the table has fewer than
three fields, yet the code skips it and keeps collecting — the
claimed "only terminator" behavior would stop there. -/
theorem c8_blank_line_not_terminator :
    extract_samples ("Z N E\n1 2 3\n\n4 5 6\n".data) =
        [(.fin ⟨1, 0⟩, .fin ⟨2, 0⟩, .fin ⟨3, 0⟩),
         (.fin ⟨4, 0⟩, .fin ⟨5, 0⟩, .fin ⟨6, 0⟩)] ∧
    claimedExtractSamples ("Z N E\n1 2 3\n\n4 5 6\n".data) =
        [(.fin ⟨1, 0⟩, .fin ⟨2, 0⟩, .fin ⟨3, 0⟩)] ∧
    extract_samples ("Z N E\n1 2 3\n\n4 5 6\n".data) ≠
      claimedExtractSamples ("Z N E\n1 2 3\n\n4 5 6\n".data) := by
  refine ⟨by decide, by decide, by decide⟩

theorem sampleLoop_characterization (lines : List (List Char)) :
    sampleLoop lines =
      ((lines.filter (fun l => !(pyStrip l).isEmpty)).takeWhile
        lineGood).map lineVal := by
  induction lines with
  | nil => rfl
  | cons line rest ih =>
    by_cases hb : (pyStrip line).isEmpty = true
    · simp only [sampleLoop, hb, if_true, List.filter_cons,
        Bool.not_eq_true']
      rw [ih]
      simp [hb]
    · have hb2 : (pyStrip line).isEmpty = false := Bool.eq_false_iff.mpr hb
      rcases hp : pySplitWs (pyStrip line) with _ | ⟨p0, tl0⟩
      · have hg : lineGood line = false := by simp [lineGood, hp]
        simp [sampleLoop, hb2, hp, hg, List.filter_cons]
      · rcases tl0 with _ | ⟨p1, tl1⟩
        · have hg : lineGood line = false := by simp [lineGood, hp]
          simp [sampleLoop, hb2, hp, hg, List.filter_cons]
        · rcases tl1 with _ | ⟨p2, tl2⟩
          · have hg : lineGood line = false := by simp [lineGood, hp]
            simp [sampleLoop, hb2, hp, hg, List.filter_cons]
          · rcases h0 : pyFloat? p0 with _ | a
            · have hg : lineGood line = false := by simp [lineGood, hp, h0]
              simp [sampleLoop, hb2, hp, h0, hg, List.filter_cons]
            · rcases h1 : pyFloat? p1 with _ | b2
              · have hg : lineGood line = false := by
                  simp [lineGood, hp, h0, h1]
                simp [sampleLoop, hb2, hp, h0, h1, hg, List.filter_cons]
              · rcases h2 : pyFloat? p2 with _ | c2
                · have hg : lineGood line = false := by
                    simp [lineGood, hp, h0, h1, h2]
                  simp [sampleLoop, hb2, hp, h0, h1, h2, hg, List.filter_cons]
                · have hg : lineGood line = true := by
                    simp [lineGood, hp, h0, h1, h2]
                  have hv : lineVal line = (a, b2, c2) := by
                    simp [lineVal, hp, h0, h1, h2]
                  simp [sampleLoop, hb2, hp, h0, h1, h2, hg, hv,
                    List.filter_cons, ih]

/-- C8 (amended): extraction starts after the first match of the
`Z N E` header pattern and collects the whitespace-separated numeric
triples of the following lines; BLANK lines are skipped, and the
table ends at the first non-blank line that has fewer than three
fields or whose three leading fields do not all parse as numbers —
that non-blank bad line is the only terminator. -/
theorem c8_sample_table_amended :
    (∀ content : List Char, findHeader content = none →
      extract_samples content = []) ∧
    (∀ (content rest : List Char), findHeader content = some rest →
      extract_samples content =
        (((splitOnNl rest).filter (fun l => !(pyStrip l).isEmpty)).takeWhile
          lineGood).map lineVal) := by
  constructor
  · intro content h
    unfold extract_samples
    rw [h]
  · intro content rest h
    unfold extract_samples
    rw [h]
    exact sampleLoop_characterization (splitOnNl rest)

/-- Witness for C8's amended theorem at a concrete report text. -/
theorem c8_sample_table_amended_witness :
    extract_samples ("Z N E\n7 8 9\nx\n".data) =
      ((((splitOnNl ("7 8 9\nx\n".data)).filter
          (fun l => !(pyStrip l).isEmpty)).takeWhile lineGood).map lineVal) := by
  exact c8_sample_table_amended.2 ("Z N E\n7 8 9\nx\n".data)
    ("7 8 9\nx\n".data) (by decide)

theorem pyEnumerate_append {α : Type} (l1 l2 : List α) :
    ∀ n, pyEnumerate n (l1 ++ l2) =
      pyEnumerate n l1 ++ pyEnumerate (n + l1.length) l2 := by
  induction l1 with
  | nil => intro n; simp [pyEnumerate]
  | cons x xs ih =>
    intro n
    show (n, x) :: pyEnumerate (n + 1) (xs ++ l2) =
      (n, x) :: (pyEnumerate (n + 1) xs ++ pyEnumerate (n + (xs.length + 1)) l2)
    rw [ih (n + 1)]
    have h : n + 1 + xs.length = n + (xs.length + 1) := by omega
    rw [h]

theorem pyEnumerate_map_fst {α : Type} (l : List α) :
    ∀ n, (pyEnumerate n l).map Prod.fst = List.range' n l.length := by
  induction l with
  | nil => intro n; simp [pyEnumerate]
  | cons x xs ih =>
    intro n
    simp only [pyEnumerate, List.map_cons, List.length_cons, List.range'_succ]
    rw [ih (n + 1)]

theorem pyEnumerate_map_snd {α : Type} (l : List α) :
    ∀ n, (pyEnumerate n l).map Prod.snd = l := by
  induction l with
  | nil => intro n; rfl
  | cons x xs ih =>
    intro n
    simp only [pyEnumerate, List.map_cons]
    rw [ih (n + 1)]

theorem pyEnumerate_shift {α β : Type} (f : Nat → α → β) (l : List α) (i : Nat) :
    ∀ n, (pyEnumerate n l).map (fun p => f (p.1 + i) p.2) =
      (pyEnumerate (n + i) l).map (fun p => f p.1 p.2) := by
  induction l with
  | nil => intro n; rfl
  | cons x xs ih =>
    intro n
    simp only [pyEnumerate, List.map_cons]
    rw [ih (n + 1)]
    have h : n + 1 + i = n + i + 1 := by omega
    rw [h]

theorem sampleRowsOfBatch_eq (rid n : Nat) (batch : List (PyFloat × PyFloat × PyFloat)) :
    sampleRowsOfBatch rid n batch =
      (pyEnumerate n batch).map (sampleRowOf rid) := by
  unfold sampleRowsOfBatch
  have h := pyEnumerate_shift
    (fun k t => (⟨rid, k, t.1, t.2.1, t.2.2⟩ : SampleRow)) batch n 0
  simpa [sampleRowOf] using h

theorem sampleRowsAll_fold (rid : Nat)
    (B : List (List (PyFloat × PyFloat × PyFloat))) :
    ∀ (n : Nat) (acc : List SampleRow),
      (B.foldl (fun acc batch => (acc.1 + batch.length,
        acc.2 ++ sampleRowsOfBatch rid acc.1 batch)) (n, acc)).2 =
      acc ++ (pyEnumerate n B.flatten).map (sampleRowOf rid) := by
  induction B with
  | nil => intro n acc; simp [pyEnumerate]
  | cons batch B ih =>
    intro n acc
    simp only [List.foldl_cons, List.flatten_cons]
    rw [ih, pyEnumerate_append batch B.flatten n, List.map_append,
      sampleRowsOfBatch_eq, List.append_assoc]

theorem sampleRowsAll_eq (rid b : Nat) (hb : 0 < b)
    (samples : List (PyFloat × PyFloat × PyFloat)) :
    sampleRowsAll rid b samples =
      (pyEnumerate 0 samples).map (sampleRowOf rid) := by
  unfold sampleRowsAll
  rw [sampleRowsAll_fold, toBatches_flatten b hb]
  simp

/-- C2 (amended): a successful persist replaces the samples of
`record_id` wholesale — afterwards the rows for that `record_id` are
exactly one row per input triple in original file order, their
`sample_index` values exactly `0..k-1` where `k` is the number of
PERSISTED samples (the parsed table's length), every other record's
samples are untouched, and the record rows (hence the record's stored
`num_samples`, which echoes the file's DECLARED count and may differ
from `k`) are untouched. -/
theorem c2_samples_full_replace (db : RecordsDB) (rid : Nat)
    (samples : List (PyFloat × PyFloat × PyFloat)) (b : Nat) (hb : 0 < b)
    (hne : ¬ samples.isEmpty = true) :
    (insert_acceleration_samples db rid samples b).2 = true ∧
    ((insert_acceleration_samples db rid samples b).1.samples.filter
        (fun s => s.record_id = rid)) =
      (pyEnumerate 0 samples).map (sampleRowOf rid) ∧
    (((insert_acceleration_samples db rid samples b).1.samples.filter
        (fun s => s.record_id = rid)).map (fun s => s.sample_index)) =
      List.range samples.length ∧
    (((insert_acceleration_samples db rid samples b).1.samples.filter
        (fun s => s.record_id = rid)).map
        (fun s => (s.accel_vertical, s.accel_north, s.accel_east))) =
      samples ∧
    ((insert_acceleration_samples db rid samples b).1.samples.filter
        (fun s => ¬ s.record_id = rid)) =
      db.samples.filter (fun s => ¬ s.record_id = rid) ∧
    (insert_acceleration_samples db rid samples b).1.records = db.records := by
  unfold insert_acceleration_samples
  rw [if_neg hne]
  have hrows := sampleRowsAll_eq rid b hb samples
  have hkeep : ((pyEnumerate 0 samples).map (sampleRowOf rid)).filter
      (fun s => s.record_id = rid) =
      (pyEnumerate 0 samples).map (sampleRowOf rid) := by
    rw [List.filter_eq_self]
    intro a ha
    obtain ⟨p, _, rfl⟩ := List.mem_map.mp ha
    simp [sampleRowOf]
  have hdrop : ((pyEnumerate 0 samples).map (sampleRowOf rid)).filter
      (fun s => ¬ s.record_id = rid) = [] := by
    rw [List.filter_eq_nil_iff]
    intro a ha
    obtain ⟨p, _, rfl⟩ := List.mem_map.mp ha
    simp [sampleRowOf]
  have hold : (db.samples.filter (fun s => ¬ s.record_id = rid)).filter
      (fun s => s.record_id = rid) = [] := by
    rw [List.filter_eq_nil_iff]
    intro a ha
    have h2 := (List.mem_filter.mp ha).2
    simp at h2
    simp [h2]
  have hold2 : (db.samples.filter (fun s => ¬ s.record_id = rid)).filter
      (fun s => ¬ s.record_id = rid) =
      db.samples.filter (fun s => ¬ s.record_id = rid) := by
    rw [List.filter_eq_self]
    intro a ha
    exact (List.mem_filter.mp ha).2
  refine ⟨rfl, ?_, ?_, ?_, ?_, rfl⟩
  · simp only [List.filter_append, hrows, hkeep, hold, List.nil_append]
  · simp only [List.filter_append, hrows, hkeep, hold, List.nil_append]
    rw [List.map_map,
      show ((fun s : SampleRow => s.sample_index) ∘ sampleRowOf rid) =
        Prod.fst from rfl,
      pyEnumerate_map_fst samples 0, ← List.range_eq_range']
  · simp only [List.filter_append, hrows, hkeep, hold, List.nil_append]
    rw [List.map_map,
      show ((fun s : SampleRow =>
          (s.accel_vertical, s.accel_north, s.accel_east)) ∘ sampleRowOf rid) =
        Prod.snd from rfl,
      pyEnumerate_map_snd samples 0]
  · simp only [List.filter_append, hrows, hdrop, hold2, List.append_nil]

/-- Witness for C2's amended theorem: one triple persisted over a
store holding a prior sample for the same record. -/
theorem c2_samples_full_replace_witness :
    (insert_acceleration_samples
      ⟨[], [], [], [⟨1, 0, .fin ⟨5, 0⟩, .fin ⟨6, 0⟩, .fin ⟨7, 0⟩⟩], 1, 1⟩ 1
      [(.fin ⟨1, 0⟩, .fin ⟨2, 0⟩, .fin ⟨3, 0⟩)] 50).2 = true := by
  exact (c2_samples_full_replace
    ⟨[], [], [], [⟨1, 0, .fin ⟨5, 0⟩, .fin ⟨6, 0⟩, .fin ⟨7, 0⟩⟩], 1, 1⟩ 1
    [(.fin ⟨1, 0⟩, .fin ⟨2, 0⟩, .fin ⟨3, 0⟩)] 50 (by decide) (by decide)).1

/-- C2 counterexample: the persist succeeds and stores `num_samples=2`
(the file's DECLARED count) on the record, yet the persisted
`sample_index` values for that record are `[0]`, not `0..1` — so the
indices are NOT `0..num_samples-1` for the record's stored sample
count; they cover the persisted table's length instead. -/
theorem c2_declared_count_mismatch :
    c2Run.2.status = StationProcessStatus.success ∧
    c2Run.1.records.map (fun r => r.num_samples) = [2] ∧
    (c2Run.1.samples.filter (fun s => s.record_id = 1)).map
        (fun s => s.sample_index) = [0] ∧
    ([0] : List Nat) ≠ List.range 2 := by
  refine ⟨by decide, by decide, by decide, by decide⟩

/-- C6: `get_events_without_records` returns at most `limit` events,
each of the requested catalog and each with zero stored acceleration
records; and once any acceleration record exists for an event id, no
call returns that event again. -/
theorem c6_get_events_without_records (db : RecordsDB) (catalog : String)
    (limit : Nat) :
    (get_events_without_records db catalog limit).length ≤ limit ∧
    (∀ e ∈ get_events_without_records db catalog limit,
      e.catalog = catalog ∧ count_records_by_event db e.event_id = 0) ∧
    (∀ (db2 : RecordsDB) (eid : String),
      (∃ r ∈ db2.records, r.event_id = eid) →
      ∀ e ∈ get_events_without_records db2 catalog limit,
        e.event_id ≠ eid) := by
  refine ⟨?_, ?_, ?_⟩
  · exact List.length_take_le limit _
  · intro e he
    have hm := List.mem_of_mem_take he
    have hp := (List.mem_filter.mp hm).2
    simp only [decide_eq_true_eq] at hp
    refine ⟨hp.1, ?_⟩
    unfold count_records_by_event
    rw [List.length_eq_zero, List.filter_eq_nil_iff]
    intro r hr
    simp only [decide_eq_true_eq]
    intro hcon
    exact hp.2 (List.mem_map.mpr ⟨r, hr, hcon⟩)
  · intro db2 eid hex e he hcon
    obtain ⟨r, hr, hrid⟩ := hex
    have hm := List.mem_of_mem_take he
    have hp := (List.mem_filter.mp hm).2
    simp only [decide_eq_true_eq] at hp
    exact hp.2 (List.mem_map.mpr ⟨r, hr, by rw [hrid, hcon]⟩)

/-- Witness for C6: with a record stored for "ev1", the query can only
return other events — here the concrete query returns "ev2". -/
theorem c6_get_events_without_records_witness :
    (⟨"ev2", "igp", none⟩ : EventRow).event_id ≠ "ev1" := by
  exact (c6_get_events_without_records
    ⟨[⟨"ev1", "igp", none⟩, ⟨"ev2", "igp", none⟩], [],
     [⟨1, "ev1", 1, "t", 50, ⟨100, 0⟩, pfZero, pfZero, pfZero, true, "p"⟩],
     [], 2, 2⟩ "igp" 5).2.2
    ⟨[⟨"ev1", "igp", none⟩, ⟨"ev2", "igp", none⟩], [],
     [⟨1, "ev1", 1, "t", 50, ⟨100, 0⟩, pfZero, pfZero, pfZero, true, "p"⟩],
     [], 2, 2⟩ "ev1"
    ⟨⟨1, "ev1", 1, "t", 50, ⟨100, 0⟩, pfZero, pfZero, pfZero, true, "p"⟩,
      by decide, rfl⟩
    ⟨"ev2", "igp", none⟩ (by decide)

/-- C9 (amended): `insert_acceleration_samples` with an empty list
returns `False` WITHOUT touching the store — but
`DatabaseBatch.save_samples` discards that Boolean and returns `True`,
so the zero-sample case is not surfaced as a samples-save failure. -/
theorem c9_empty_samples_returns_false_store_unchanged (db : RecordsDB)
    (rid b : Nat) :
    insert_acceleration_samples db rid [] b = (db, false) ∧
    save_samples db b rid [] = (db, true) := ⟨rfl, rfl⟩

/-- C9 counterexample: a parse with zero samples ends in a SUCCESS
outcome (samples_count 0), NOT the samples-save failure the claim
asserts — `save_samples` swallowed the `False`; the prior samples are
indeed left in place. -/
theorem c9_zero_samples_reported_success :
    (parse c9Report.data).map (fun p => p.2.length) = some 0 ∧
    c9Run.2.status = StationProcessStatus.success ∧
    c9Run.2.status ≠ StationProcessStatus.db_samples_save_error ∧
    c9Run.2.samples_count = 0 ∧
    c9Run.1.samples = c9DB.samples := by
  refine ⟨by decide, by decide, by decide, by decide, by decide⟩

theorem update_metrics_saved_db (results : List StationProcessResult)
    (m : EventProcessMetrics) :
    (update_metrics m results).stations_saved_db =
      m.stations_saved_db +
        (results.filter
          (fun r => r.status = StationProcessStatus.success)).length := by
  induction results generalizing m with
  | nil => rfl
  | cons r rs ih =>
    show (update_metrics _ rs).stations_saved_db = _
    rw [ih]
    rcases hst : r.status
    all_goals
      simp [record_success, record_file_not_found, record_parse_error,
        record_db_error, hst, List.filter_cons]
    all_goals omega

/-- C5: on a fresh metrics object (one `IGPDownloader` per event, as
`_process_single_event` builds), `process_event` returns true exactly
when at least one station's processing ended in SUCCESS; and the
claim's concrete scenario — one SUCCESS with 50 samples plus one
FILE_NOT_FOUND — yields one saved station, one file-not-found,
`total_samples = 50` and a true return. -/
theorem c5_process_event_true_iff_station_saved
    (m : EventProcessMetrics) (d : Option EventData)
    (proc : StationInfo → StationProcessResult)
    (h0 : m.stations_saved_db = 0) :
    ((process_event m d proc).2 = true ↔
      ∃ st ∈ (match d with
        | none => ([] : List StationInfo)
        | some dd => stationExtract dd),
        (proc st).status = StationProcessStatus.success) ∧
    process_event {} (some c5Data) c5Proc =
      ({ total_events_requested := 1, events_downloaded := 1,
         stations_processed := 2, stations_saved_db := 1,
         stations_file_not_found := 1, total_samples := 50 }, true) := by
  constructor
  · rcases d with _ | dd
    · simp [process_event]
    · rcases hs : stationExtract dd with _ | ⟨st0, sts⟩
      · simp [process_event, hs]
      · have hne : (stationExtract dd).isEmpty = false := by
          rw [hs]; rfl
        simp only [process_event, hs, List.isEmpty_cons, if_false,
          Bool.false_eq_true]
        rw [update_metrics_saved_db]
        simp only [h0, Nat.zero_add, decide_eq_true_eq]
        constructor
        · intro h
          have hpos := h
          rw [List.length_pos_iff_exists_mem] at hpos
          obtain ⟨r, hr⟩ := hpos
          have hm := List.mem_filter.mp hr
          obtain ⟨st, hst, rfl⟩ := List.mem_map.mp hm.1
          exact ⟨st, hst, by simpa using hm.2⟩
        · intro ⟨st, hst, hsucc⟩
          rw [List.length_pos_iff_exists_mem]
          exact ⟨proc st, List.mem_filter.mpr
            ⟨List.mem_map.mpr ⟨st, hst, rfl⟩, by simpa using hsucc⟩⟩
  · decide

/-- Witness for C5 at the claim's concrete scenario. -/
theorem c5_process_event_true_iff_witness :
    (process_event {} (some c5Data) c5Proc).2 = true := by
  exact (c5_process_event_true_iff_station_saved {} (some c5Data) c5Proc
    rfl).1.mpr
    ⟨⟨"A", "Alpha", ⟨-12, 0⟩, ⟨-77, 0⟩, "PE"⟩, by decide, by decide⟩

/-- C3: with any required column missing, the extraction body raises
before any row is processed — the error is the same whatever the rows
are — and the whole file yields no events: the catching wrapper
returns `[]` and `scrape_catalog_from_csv` returns an untouched store
with a zero-count result. -/
theorem c3_csv_missing_column_fail_fast (b : Nat) (st : CatalogStore)
    (fr : CSVFrame) (year : Option Int)
    (minLat maxLat minLon maxLon : Option Dec) (col : String)
    (hreq : col ∈ required_columns) (hmiss : ¬ col ∈ fr.columns) :
    fetchEventsE fr year minLat maxLat minLon maxLon =
      Except.error (required_columns.filter (fun c => ¬ c ∈ fr.columns)) ∧
    (∀ rows2 : List CSVRow,
      fetchEventsE ⟨fr.columns, rows2⟩ year minLat maxLat minLon maxLon =
        fetchEventsE fr year minLat maxLat minLon maxLon) ∧
    CSVExtractor_fetch_events fr year minLat maxLat minLon maxLon = [] ∧
    scrape_catalog_from_csv b st fr year minLat maxLat minLon maxLon =
      (st, ⟨0, 0, 0, none⟩) := by
  have hm : ¬ (required_columns.filter
      (fun c => ¬ c ∈ fr.columns)).isEmpty = true := by
    have hmem : col ∈ required_columns.filter (fun c => ¬ c ∈ fr.columns) :=
      List.mem_filter.mpr ⟨hreq, by simpa using hmiss⟩
    intro hcon
    rw [List.isEmpty_iff] at hcon
    rw [hcon] at hmem
    exact absurd hmem (List.not_mem_nil col)
  have h1 : fetchEventsE fr year minLat maxLat minLon maxLon =
      Except.error (required_columns.filter (fun c => ¬ c ∈ fr.columns)) := by
    simp only [fetchEventsE]
    rw [if_pos hm]
  refine ⟨h1, ?_, ?_, ?_⟩
  · intro rows2
    rw [h1]
    simp only [fetchEventsE]
    rw [if_pos hm]
  · simp only [CSVExtractor_fetch_events, h1]
  · simp only [scrape_catalog_from_csv, CSVExtractor_fetch_events, h1]
    rfl

/-- Witness for C3 at a concrete frame lacking `magType`. -/
theorem c3_csv_missing_column_fail_fast_witness :
    CSVExtractor_fetch_events ⟨["event_id"], []⟩ none none none none none
      = [] := by
  exact (c3_csv_missing_column_fail_fast 1 (fun _ => none)
    ⟨["event_id"], []⟩ none none none none none "magType"
    (by decide) (by decide)).2.2.1

/-- Sanity examples for the embedded parsers: an ISO string with a
trailing `Z`, a slash-format string, and garbage falling back. -/
theorem normalize_event_time_examples :
    normalize_event_time ⟨2026, 1, 1, 0, 0, 0⟩
        (.str "2021-03-04T05:06:07Z") = ⟨2021, 3, 4, 5, 6, 7⟩ ∧
    normalize_event_time ⟨2026, 1, 1, 0, 0, 0⟩
        (.str "2021/03/04 05:06:07") = ⟨2021, 3, 4, 5, 6, 7⟩ ∧
    normalize_event_time ⟨2026, 1, 1, 0, 0, 0⟩
        (.str "not a date") = ⟨2026, 1, 1, 0, 0, 0⟩ := by
  refine ⟨?_, ?_, ?_⟩ <;> decide

end GuraForge

